import Mathlib

/-!
A verification development for the core of the `regex-automata` matching
library. Rust sources are shallowly embedded: machine integers become `Nat`
(with explicit `% 2 ^ w` where wrap-around could matter), panics and
assertions become `Option`/`Except` failures, and mutation becomes explicit
state passing. Definitions mirror the corresponding Rust items; where a
module is referenced but its source is not part of this tree (for example
`LazyStateID`, `alphabet::ByteClasses`, the determinizer state type), the
definition is modelled from the specification and says so in its doc
comment.
-/

namespace RegexAutomata

/-! ## util/mod.rs : `utf8_len` and `next_utf8` -/

/-- From `util/mod.rs::utf8_len`: given a UTF-8 leading byte, the total
number of code units in the encoded codepoint, or `none` when the byte is
not a valid leading byte. -/
def utf8Len (byte : Nat) : Option Nat :=
  if byte ≤ 0x7F then some 1
  else if byte &&& 0b11000000 == 0b10000000 then none
  else if byte ≤ 0b11011111 then some 2
  else if byte ≤ 0b11101111 then some 3
  else if byte ≤ 0b11110111 then some 4
  else none

/-- From `util/mod.rs::next_utf8`: the smallest possible index of the next
valid UTF-8 sequence starting after `i`. Rust's `checked_add(1).unwrap()`
can only fail on `usize` overflow, which has no counterpart on `Nat`. -/
def nextUtf8 (text : List Nat) (i : Nat) : Nat :=
  match text.get? i with
  | none => i + 1
  | some b => i + (utf8Len b).getD 1

/-! ## util/matchtypes.rs : `Span`, `Search`, `Match` -/

/-- From `util/matchtypes.rs::Span` (field `end` is renamed `stop`, since
`end` is a Lean keyword). -/
structure SpanMT where
  start : Nat
  stop : Nat
deriving DecidableEq, Repr

/-- From `util/matchtypes.rs::Span::is_empty`. -/
def SpanMT.isEmpty (s : SpanMT) : Bool := s.start == s.stop

/-- From `util/matchtypes.rs::Search` (haystack bytes, the searched span,
an optional pattern restriction, the earliest flag and the utf8 flag). -/
structure SearchMT where
  haystack : List Nat
  span : SpanMT
  pattern : Option Nat
  earliest : Bool
  utf8 : Bool
deriving DecidableEq, Repr

/-- From `util/matchtypes.rs::Search::set_start`. -/
def SearchMT.setStart (s : SearchMT) (start : Nat) : SearchMT :=
  { s with span := { s.span with start := start } }

/-- From `util/matchtypes.rs::Search::step`: advance the start of the span
by one unit, meaning one codepoint in UTF-8 mode (via `next_utf8`) and one
byte otherwise. -/
def SearchMT.step (s : SearchMT) : SearchMT :=
  s.setStart (if s.utf8 then nextUtf8 s.haystack s.span.start
              else s.span.start + 1)

/-- From `util/matchtypes.rs::Search::is_done`. -/
def SearchMT.isDone (s : SearchMT) : Bool := s.span.start > s.span.stop

/-- From `util/matchtypes.rs::Match`. -/
structure MatchMT where
  pattern : Nat
  span : SpanMT
deriving DecidableEq, Repr

/-- From `util/matchtypes.rs::Match::new`. The source constructs the value
unconditionally; it contains no check on the span, despite its
documentation claiming a panic when `end < start`. -/
def MatchMT.new (pattern start stop : Nat) : MatchMT :=
  ⟨pattern, ⟨start, stop⟩⟩

/-- From `util/matchtypes.rs::Match::is_empty`. -/
def MatchMT.isEmpty (m : MatchMT) : Bool := m.span.isEmpty

/-- From `util/matchtypes.rs::Match::start`. -/
def MatchMT.start (m : MatchMT) : Nat := m.span.start

/-- From `util/matchtypes.rs::Match::end` (renamed `stop`). -/
def MatchMT.stop (m : MatchMT) : Nat := m.span.stop

/-! ## util/search.rs : `Span`, `Match`, `HalfMatch`, `MatchErrorKind` -/

/-- From `util/search.rs::Span`. -/
structure SpanS where
  start : Nat
  stop : Nat
deriving DecidableEq, Repr

/-- From `util/search.rs::Match`. -/
structure MatchS where
  pattern : Nat
  span : SpanS
deriving DecidableEq, Repr

/-- From `util/search.rs::Match::new`: `assert!(span.start <= span.end)`,
with the panic modelled as `none`. -/
def MatchSNew (pattern : Nat) (span : SpanS) : Option MatchS :=
  if span.start ≤ span.stop then some ⟨pattern, span⟩ else none

/-- From `util/search.rs::HalfMatch`. -/
structure HalfMatchS where
  pattern : Nat
  offset : Nat
deriving DecidableEq, Repr

/-- From `util/search.rs::MatchErrorKind` (variants `Quit`, `GaveUp` and
`HaystackTooLong`). -/
inductive MatchErrorKind where
  | quit (byte : Nat) (offset : Nat)
  | gaveUp (offset : Nat)
  | haystackTooLong (len : Nat)
deriving DecidableEq, Repr

/-! ## meta/strategy.rs : the Core fallback orchestration -/

/-- From `meta/strategy.rs::is_err_quit_or_gaveup`. -/
def isErrQuitOrGaveup : MatchErrorKind → Bool
  | .quit _ _ => true
  | .gaveUp _ => true
  | .haystackTooLong _ => false

/-- From `meta/strategy.rs::Core::try_search_mayfail`. The full-DFA and
lazy-DFA engines enter the model as the outcome that
`self.dfa.get(input)` / `self.hybrid.get(input)` followed by
`e.try_search(..)` would produce: `none` when the engine is absent or
declines the input, otherwise the engine's search result. An overall
result of `.error none` asks the caller to fall back. -/
def trySearchMayfail
    (dfa hybrid : Option (Except MatchErrorKind (Option MatchS))) :
    Except (Option MatchErrorKind) (Option MatchS) :=
  match dfa, hybrid with
  | some (.ok m), _ => .ok m
  | some (.error err), _ =>
    if !isErrQuitOrGaveup err then .error (some err) else .error none
  | none, some (.ok m) => .ok m
  | none, some (.error err) =>
    if !isErrQuitOrGaveup err then .error (some err) else .error none
  | none, none => .error none

/-- From `meta/strategy.rs::Core::try_search` (`Strategy` impl), with the
fallback `try_search_nofail` result passed in as `nofail`. -/
def trySearch (dfa hybrid : Option (Except MatchErrorKind (Option MatchS)))
    (nofail : Except MatchErrorKind (Option MatchS)) :
    Except MatchErrorKind (Option MatchS) :=
  match trySearchMayfail dfa hybrid with
  | .ok x => .ok x
  | .error (some err) => .error err
  | .error none => nofail

/-- From `meta/strategy.rs::Core::try_search_half_mayfail`, identical in
shape to `try_search_mayfail` but over half matches. -/
def trySearchHalfMayfail
    (dfa hybrid : Option (Except MatchErrorKind (Option HalfMatchS))) :
    Except (Option MatchErrorKind) (Option HalfMatchS) :=
  match dfa, hybrid with
  | some (.ok m), _ => .ok m
  | some (.error err), _ =>
    if !isErrQuitOrGaveup err then .error (some err) else .error none
  | none, some (.ok m) => .ok m
  | none, some (.error err) =>
    if !isErrQuitOrGaveup err then .error (some err) else .error none
  | none, none => .error none

/-- From `meta/strategy.rs::Core::try_search_half` (`Strategy` impl): on
fallback, run `try_search_nofail` and keep only the end position. -/
def trySearchHalf
    (dfa hybrid : Option (Except MatchErrorKind (Option HalfMatchS)))
    (nofail : Except MatchErrorKind (Option MatchS)) :
    Except MatchErrorKind (Option HalfMatchS) :=
  match trySearchHalfMayfail dfa hybrid with
  | .ok x => .ok x
  | .error (some err) => .error err
  | .error none =>
    match nofail with
    | .error e => .error e
    | .ok matched => .ok (matched.map fun m => ⟨m.pattern, m.span.stop⟩)

/-- A pattern set, as mutated by `try_which_overlapping_matches`. -/
def PatSet := List Nat

/-- An overlapping-search engine: it mutates the pattern set and reports
an optional search error, mirroring a Rust `&mut PatternSet` argument
together with a `Result<(), MatchError>` return. -/
def OverlappingEngine := PatSet → Option MatchErrorKind × PatSet

/-- From `meta/strategy.rs::Core::try_which_overlapping_matches`: use the
full DFA if present, else the lazy DFA; on a `Quit`/`GaveUp` error fall
through to the PikeVM, otherwise propagate the error. -/
def tryWhichOverlappingMatches
    (dfa hybrid : Option OverlappingEngine) (pikevm : OverlappingEngine)
    (patset : PatSet) : Option MatchErrorKind × PatSet :=
  match dfa with
  | some e =>
    match e patset with
    | (none, ps) => (none, ps)
    | (some err, ps) =>
      if !isErrQuitOrGaveup err then (some err, ps) else pikevm ps
  | none =>
    match hybrid with
    | some e =>
      match e patset with
      | (none, ps) => (none, ps)
      | (some err, ps) =>
        if !isErrQuitOrGaveup err then (some err, ps) else pikevm ps
    | none => pikevm patset

/-! ## dfa/onepass.rs : 64-bit cell packing

Values of the Rust types `Transition(u64)`, `PatternInfo(u64)`,
`Patterns(u32)` and `Info(u32)` are embedded as plain `Nat`s (bounds such
as `< 2 ^ 32` appear as hypotheses where the Rust type guarantees them);
`as u32` casts become `% 2 ^ 32` and Rust `assert!`s become `Option`
failures. -/

/-- From `dfa/onepass.rs::Transition::new`:
`((sid.as_u32() as u64) << 32) | (info.0 as u64)`. -/
def transitionNew (sid info : Nat) : Nat := (sid <<< 32) ||| info

/-- From `dfa/onepass.rs::Transition::state_id`: `(self.0 >> 32)`. -/
def transitionStateId (t : Nat) : Nat := t >>> 32

/-- From `dfa/onepass.rs::Info::MAX_SLOTS`. -/
def infoMaxSlots : Nat := 24

/-- From `dfa/onepass.rs::Info::slot_insert`: asserts `slot < MAX_SLOTS`
(modelled as `none`), then sets bit `8 + slot`. -/
def infoSlotInsert (i slot : Nat) : Option Nat :=
  if slot < infoMaxSlots then some (i ||| (1 <<< (8 + slot))) else none

/-- From `dfa/onepass.rs::Info::look_insert`. The `thompson::Look` module is
not part of this tree; per the specification the look-around assertions are
encoded in the low 8 bits, so a look's `as_repr()` value is a `u8`,
represented here as a `Nat` bounded by `256` in the theorems. -/
def infoLookInsert (i look : Nat) : Nat := i ||| look

/-- From `dfa/onepass.rs::Info::look_contains`. -/
def infoLookContains (i look : Nat) : Bool := i &&& look != 0

/-- From `dfa/onepass.rs::Info::look_is_empty`: `self.0 & 0b1111_1111 == 0`. -/
def infoLookIsEmpty (i : Nat) : Bool := i &&& 0b11111111 == 0

/-- From `dfa/onepass.rs::PatternInfo::MASK_INFO`. -/
def maskInfo : Nat := 2 ^ 32 - 1

/-- From `dfa/onepass.rs::PatternInfo::MASK_PATTERNS`. -/
def maskPatterns : Nat := (2 ^ 32 - 1) <<< 32

/-- From `dfa/onepass.rs::PatternInfo::patterns`:
`Patterns((self.0 >> 32) as u32)`. -/
def patternInfoPatterns (x : Nat) : Nat := (x >>> 32) % 2 ^ 32

/-- From `dfa/onepass.rs::PatternInfo::set_patterns`:
`(self.0 & MASK_INFO) | ((patterns.0 as u64) << 32)`. -/
def patternInfoSetPatterns (x p : Nat) : Nat := (x &&& maskInfo) ||| (p <<< 32)

/-- From `dfa/onepass.rs::PatternInfo::info`: `Info(self.0 as u32)`. -/
def patternInfoInfo (x : Nat) : Nat := x % 2 ^ 32

/-- From `dfa/onepass.rs::PatternInfo::set_info`:
`(info.0 as u64) | (self.0 & MASK_PATTERNS)`. -/
def patternInfoSetInfo (x i : Nat) : Nat := i ||| (x &&& maskPatterns)

/-- From `dfa/onepass.rs::Patterns::MAX`. -/
def patternsMax : Nat := 32

/-- From `dfa/onepass.rs::Patterns::contains`: asserts `pid < MAX`
(modelled as `none`), then tests bit `pid`. -/
def patternsContains (p pid : Nat) : Option Bool :=
  if pid < patternsMax then some (p &&& (1 <<< pid) != 0) else none

/-- From `dfa/onepass.rs::Patterns::insert`: asserts `pid < MAX` (modelled
as `none`), then sets bit `pid`. -/
def patternsInsert (p pid : Nat) : Option Nat :=
  if pid < patternsMax then some (p ||| (1 <<< pid)) else none

/-! ## hybrid/dfa.rs and hybrid/search.rs : the lazy DFA

The cache machinery of `hybrid/dfa.rs` is embedded with mutation as
explicit state passing in a small state-plus-failure monad, and the
non-structural recursion `add_state -> try_clear_cache -> clear_cache ->
add_state` is made total with a fuel parameter (running out of fuel is a
distinct failure, separate from cache errors and panics). Collaborator
modules that are not part of this tree (`hybrid/id.rs`,
`util/determinize`, `util/alphabet`, `util/start.rs`, the Thompson NFA)
are modelled from the specification as noted on each definition. -/

namespace Hybrid

/-- Modelled from the spec: a lazy state ID (`hybrid/id.rs`, absent from
this tree) is an offset into the cache's transition table together with
low-order tag bits distinguishing unknown, dead, quit, start and match
states; only the observable queries are contractually required. -/
structure LazyStateID where
  index : Nat
  unknown : Bool := false
  dead : Bool := false
  quit : Bool := false
  start : Bool := false
  isMatch : Bool := false
deriving DecidableEq, Repr

/-- Modelled from the spec: `is_tagged` holds for any of the five tags. -/
def LazyStateID.isTagged (s : LazyStateID) : Bool :=
  s.unknown || s.dead || s.quit || s.start || s.isMatch

/-- Modelled from the spec: set the `unknown` tag bit. -/
def LazyStateID.toUnknown (s : LazyStateID) : LazyStateID :=
  { s with unknown := true }

/-- Modelled from the spec: set the `dead` tag bit. -/
def LazyStateID.toDead (s : LazyStateID) : LazyStateID :=
  { s with dead := true }

/-- Modelled from the spec: set the `quit` tag bit. -/
def LazyStateID.toQuit (s : LazyStateID) : LazyStateID :=
  { s with quit := true }

/-- Modelled from the spec: set the `start` tag bit. -/
def LazyStateID.toStart (s : LazyStateID) : LazyStateID :=
  { s with start := true }

/-- Modelled from the spec: set the `match` tag bit. -/
def LazyStateID.toMatch (s : LazyStateID) : LazyStateID :=
  { s with isMatch := true }

/-- Modelled from the spec: `LazyStateID::new` fails when the untagged
value exceeds the ID space (`idLimit` in the model). -/
def lazyIdNew (idLimit n : Nat) : Except Unit LazyStateID :=
  if n ≤ idLimit then .ok { index := n } else .error ()

/-- Modelled from the spec: a determinizer `State` (`util/determinize`,
absent from this tree) is an ordered set of NFA states together with
match information; the lazy DFA observes its match flag, its matching
pattern IDs, its heap memory usage (`memory_usage()`, also the length of
its byte serialization `as_bytes()`), and compares whole states for cache
deduplication. -/
structure DState where
  isMatch : Bool
  patterns : List Nat
  nfaStates : List Nat
  mem : Nat
deriving DecidableEq, Repr

/-- Modelled from the spec: `State::dead()`, the empty set of NFA
states. -/
def DState.dead : DState := ⟨false, [], [], 0⟩

/-- From `hybrid/dfa.rs::StateSaver`. -/
inductive StateSaver where
  | none
  | toSave (id : LazyStateID) (state : DState)
  | saved (id : LazyStateID)
deriving DecidableEq, Repr

/-- From `hybrid/dfa.rs::StateSaver::take_to_save`: replace the saver with
`None` and return the pending request, if any. -/
def StateSaver.takeToSave :
    StateSaver → Option (LazyStateID × DState) × StateSaver
  | .toSave id state => (some (id, state), .none)
  | _ => (Option.none, .none)

/-- From `hybrid/dfa.rs::StateSaver::take_saved`: replace the saver with
`None` and return the saved (or to-be-saved) ID, if any. -/
def StateSaver.takeSaved : StateSaver → Option LazyStateID × StateSaver
  | .saved id => (some id, .none)
  | .toSave id _ => (some id, .none)
  | .none => (Option.none, .none)

/-- From `hybrid/dfa.rs::Cache`. The sparse sets, the stack and the
scratch state builder carry no information observable by the model; their
memory contribution is the constant `fixedMem` of the `InertDFA`. -/
structure Cache where
  trans : List LazyStateID
  starts : List LazyStateID
  states : List DState
  statesToId : List (DState × LazyStateID)
  stateSaver : StateSaver
  memoryUsageState : Nat
  clearCount : Nat
deriving DecidableEq, Repr

/-- The all-empty cache that `Cache::new` initializes. -/
def Cache.empty : Cache := ⟨[], [], [], [], .none, 0, 0⟩

/-- From `hybrid/dfa.rs::InertDFA`, the immutable lazy-DFA description.
Missing collaborator modules are abstracted into functions, modelled from
the spec: `detNext` is one step of powerset construction
(`determinize::next`) on a cached state and an alphabet unit (a byte
class index, with `alphabetLen - 1` the EOI unit); `startClosure` builds
the start state set for a pattern and start kind (`cache_start_one`);
`classOf` is the byte-equivalence-class map; `startKindFwd` picks the
start kind from the position (`Start::from_position_fwd`); `startCount`
is `Start::count()`; `idSize`, `stateSize` and `fixedMem` stand for the
Rust `size_of` constants and the fixed memory of sparse sets, stack and
scratch builder; `idLimit` is the lazy state ID space bound. -/
structure InertDFA where
  detNext : DState → Nat → DState
  startClosure : Option Nat → Nat → DState
  classOf : Nat → Nat
  startKindFwd : List Nat → Nat → Nat → Nat
  startCount : Nat
  alphabetLen : Nat
  stride2 : Nat
  quitset : List Nat
  cacheCapacity : Nat
  minimumCacheClearCount : Option Nat
  startsForEachPattern : Bool
  patternCount : Nat
  idLimit : Nat
  idSize : Nat
  stateSize : Nat
  fixedMem : Nat

/-- From `hybrid/dfa.rs::InertDFA::stride`. -/
def InertDFA.stride (I : InertDFA) : Nat := 2 ^ I.stride2

/-- From `hybrid/dfa.rs::DFA::unknown_id`: `LazyStateID::new(0)` tagged
unknown. -/
def unknownId : LazyStateID := { index := 0, unknown := true }

/-- From `hybrid/dfa.rs::DFA::dead_id`: `LazyStateID::new(1 << stride2)`
tagged dead. -/
def deadId (I : InertDFA) : LazyStateID := { index := I.stride, dead := true }

/-- From `hybrid/dfa.rs::DFA::quit_id`: `LazyStateID::new(2 << stride2)`
tagged quit. -/
def quitId (I : InertDFA) : LazyStateID :=
  { index := 2 * I.stride, quit := true }

/-- From `hybrid/dfa.rs::DFA::is_sentinel`. -/
def isSentinel (I : InertDFA) (id : LazyStateID) : Bool :=
  id == unknownId || id == deadId I || id == quitId I

/-- From `hybrid/dfa.rs::DFA::is_valid`. -/
def isValid (I : InertDFA) (c : Cache) (id : LazyStateID) : Bool :=
  id.index < c.trans.length && id.index % I.stride == 0

/-- From `hybrid/dfa.rs::Cache::memory_usage`. -/
def Cache.memoryUsage (I : InertDFA) (c : Cache) : Nat :=
  c.trans.length * I.idSize + c.starts.length * I.idSize
    + c.states.length * I.stateSize
    + c.statesToId.length * (I.stateSize + I.idSize)
    + I.fixedMem + c.memoryUsageState

/-- From `hybrid/dfa.rs::DFA::memory_usage_for_one_more_state`. -/
def memoryUsageForOneMoreState (I : InertDFA) (stateHeapSize : Nat) : Nat :=
  I.stride * I.idSize + I.stateSize + (I.stateSize + I.idSize)
    + stateHeapSize

/-- From `hybrid/dfa.rs::DFA::state_fits_in_cache`. -/
def stateFitsInCache (I : InertDFA) (c : Cache) (builder : DState) : Bool :=
  Cache.memoryUsage I c + memoryUsageForOneMoreState I builder.mem
    ≤ I.cacheCapacity

/-- The failure modes of the cache machinery: the one real
`hybrid::CacheError` value (`too_many_cache_resets`), a Rust panic
(failed `assert!`/`expect`/`unwrap`/indexing), and fuel exhaustion of the
model. -/
inductive CErr where
  | tooManyCacheResets
  | crash
  | fuel
deriving DecidableEq, Repr

/-- The cache-mutating computation monad: state passing over `Cache` where
failures leave the state as it was at the failure point, exactly as
mutation through `&mut Cache` does in Rust. -/
def CacheM (α : Type) : Type := Cache → Except CErr α × Cache

/-- Monad unit for `CacheM`. -/
def CacheM.pure (a : α) : CacheM α := fun c => (.ok a, c)

/-- Monad bind for `CacheM`. -/
def CacheM.bind (x : CacheM α) (f : α → CacheM β) : CacheM β := fun c =>
  match x c with
  | (.ok a, c) => f a c
  | (.error e, c) => (.error e, c)

instance : Monad CacheM where
  pure := CacheM.pure
  bind := CacheM.bind

/-- Fail with the given error, keeping the cache. -/
def CacheM.throw (e : CErr) : CacheM α := fun c => (.error e, c)

/-- Read the cache. -/
def CacheM.get : CacheM Cache := fun c => (.ok c, c)

/-- Replace the cache. -/
def CacheM.set (c : Cache) : CacheM Unit := fun _ => (.ok (), c)

/-- Transform the cache. -/
def CacheM.modify (f : Cache → Cache) : CacheM Unit := fun c =>
  (.ok (), f c)

/-- A Rust `.unwrap()`/`.expect(..)` on a fallible cache operation: any
failure other than fuel exhaustion becomes a panic. -/
def CacheM.unwrap (x : CacheM α) : CacheM α := fun c =>
  match x c with
  | (.error .fuel, c) => (.error .fuel, c)
  | (.error _, c) => (.error .crash, c)
  | ok => ok

/-- From `hybrid/dfa.rs::DFA::get_cached_state`: `states[untagged >>
stride2]`, an out-of-bounds index being a panic. -/
def getState (I : InertDFA) (sid : LazyStateID) : CacheM DState := fun c =>
  match c.states.get? (sid.index >>> I.stride2) with
  | some s => (.ok s, c)
  | none => (.error .crash, c)

/-- From `hybrid/dfa.rs::DFA::set_transition`: asserts both IDs valid,
then writes the table entry at `from.untagged + class(unit)` (units are
already class indices in this model). -/
def setTransition (I : InertDFA) (from_ : LazyStateID) (unit : Nat)
    (to_ : LazyStateID) : CacheM Unit := fun c =>
  if isValid I c from_ && isValid I c to_ then
    if from_.index + unit < c.trans.length then
      (.ok (), { c with trans := c.trans.set (from_.index + unit) to_ })
    else (.error .crash, c)
  else (.error .crash, c)

/-- From `hybrid/dfa.rs::DFA::set_all_transitions`: one `set_transition`
per representative unit (all `alphabetLen` units, the EOI included). -/
def setAllTransitions (I : InertDFA) (from_ to_ : LazyStateID) :
    CacheM Unit :=
  (List.range I.alphabetLen).foldlM
    (fun _ unit => setTransition I from_ unit to_) ()

/-- Lookup in the state-to-ID map (a `HashMap` in Rust). -/
def mapLookup (m : List (DState × LazyStateID)) (k : DState) :
    Option LazyStateID :=
  match m.find? (fun e => e.1 == k) with
  | some e => some e.2
  | none => none

/-- Insert into the state-to-ID map, replacing any existing binding, as
`HashMap::insert` does. -/
def mapInsert (m : List (DState × LazyStateID)) (k : DState)
    (v : LazyStateID) : List (DState × LazyStateID) :=
  (k, v) :: m.filter (fun e => e.1 ≠ k)

/-- From `hybrid/dfa.rs::DFA::save_state`. -/
def saveState (I : InertDFA) (id : LazyStateID) : CacheM Unit := do
  let st ← getState I id
  CacheM.modify fun c => { c with stateSaver := .toSave id st }

/-- From `hybrid/dfa.rs::DFA::saved_state_id`: take the saved ID,
panicking when there is none. -/
def savedStateId : CacheM LazyStateID := fun c =>
  match c.stateSaver.takeSaved with
  | (some id, saver) => (.ok id, { c with stateSaver := saver })
  | (none, saver) => (.error .crash, { c with stateSaver := saver })

/-- From `hybrid/dfa.rs::DFA::set_start_state`: asserts the ID valid and
writes the start-table entry (indexing panics when out of bounds). -/
def setStartState (I : InertDFA) (patternId : Option Nat) (start : Nat)
    (id : LazyStateID) : CacheM Unit := fun c =>
  if isValid I c id then
    let index := match patternId with
      | none => start
      | some pid => I.startCount + I.startCount * pid + start
    if index < c.starts.length then
      (.ok (), { c with starts := c.starts.set index id })
    else (.error .crash, c)
  else (.error .crash, c)

/-- From `hybrid/dfa.rs::DFA::get_cached_start`: asserts a given pattern
ID is in range, then reads the start-table entry. -/
def getCachedStart (I : InertDFA) (patternId : Option Nat) (start : Nat) :
    CacheM LazyStateID := fun c =>
  match patternId with
  | none =>
    match c.starts.get? start with
    | some id => (.ok id, c)
    | none => (.error .crash, c)
  | some pid =>
    if pid < I.patternCount then
      match c.starts.get? (I.startCount + I.startCount * pid + start) with
      | some id => (.ok id, c)
      | none => (.error .crash, c)
    else (.error .crash, c)

mutual

/-- From `hybrid/dfa.rs::DFA::try_clear_cache`: give up with a cache
error when the clear count has reached the configured minimum, otherwise
clear. -/
def tryClearCache (I : InertDFA) : Nat → CacheM Unit
  | 0 => CacheM.throw .fuel
  | fuel + 1 => do
    let c ← CacheM.get
    match I.minimumCacheClearCount with
    | some minCount =>
      if c.clearCount ≥ minCount then CacheM.throw .tooManyCacheResets
      else clearCache I fuel
    | none => clearCache I fuel

/-- From `hybrid/dfa.rs::DFA::clear_cache`: drop all cached data,
increment the clear count, reinitialize, and re-add the saved state (if
one was requested) with its start tag preserved; the re-addition is
`.expect(..)`ed. -/
def clearCache (I : InertDFA) : Nat → CacheM Unit
  | 0 => CacheM.throw .fuel
  | fuel + 1 => do
    CacheM.modify fun c =>
      { c with trans := [], starts := [], states := [], statesToId := [],
               memoryUsageState := 0, clearCount := c.clearCount + 1 }
    initCache I fuel
    let c ← CacheM.get
    let (taken, saver) := c.stateSaver.takeToSave
    CacheM.set { c with stateSaver := saver }
    match taken with
    | none => CacheM.pure ()
    | some (oldId, state) =>
      if isSentinel I oldId then CacheM.throw .crash
      else do
        let newId ← CacheM.unwrap (addState I fuel state
          (fun id => if oldId.start then id.toStart else id))
        CacheM.modify fun c => { c with stateSaver := .saved newId }

/-- From `hybrid/dfa.rs::DFA::init_cache`: install the all-unknown start
table, add the three sentinel states (whose IDs are `assert_eq!`ed to the
fixed values), give them self-loop transition rows, and record the
canonical dead state in the deduplication map. -/
def initCache (I : InertDFA) : Nat → CacheM Unit
  | 0 => CacheM.throw .fuel
  | fuel + 1 => do
    let startsLen := I.startCount
      + (if I.startsForEachPattern then I.startCount * I.patternCount
         else 0)
    CacheM.modify fun c =>
      { c with starts := c.starts ++ List.replicate startsLen unknownId }
    let unkId ← CacheM.unwrap
      (addState I fuel DState.dead (fun id => id.toUnknown))
    let deadId' ← CacheM.unwrap
      (addState I fuel DState.dead (fun id => id.toDead))
    let quitId' ← CacheM.unwrap
      (addState I fuel DState.dead (fun id => id.toQuit))
    if unkId = unknownId ∧ deadId' = deadId I ∧ quitId' = quitId I then do
      setAllTransitions I unkId unkId
      setAllTransitions I deadId' deadId'
      setAllTransitions I quitId' quitId'
      CacheM.modify fun c =>
        { c with statesToId := mapInsert c.statesToId DState.dead deadId' }
    else CacheM.throw .crash

/-- From `hybrid/dfa.rs::DFA::add_state`: clear the cache first when the
estimated memory would exceed the capacity; allocate the next state ID;
tag it; grow the transition table with unknown transitions; pre-install
quit transitions for every configured quit byte on non-sentinel states;
record the state and its ID. -/
def addState (I : InertDFA) : Nat → DState →
    (LazyStateID → LazyStateID) → CacheM LazyStateID
  | 0, _, _ => CacheM.throw .fuel
  | fuel + 1, state, idmap => do
    let c ← CacheM.get
    let requiredCap := Cache.memoryUsage I c
      + memoryUsageForOneMoreState I state.mem
    if requiredCap > I.cacheCapacity then tryClearCache I fuel
      else CacheM.pure ()
    let sid ← nextStateId I fuel
    let id := idmap sid
    let id := if state.isMatch then id.toMatch else id
    CacheM.modify fun c =>
      { c with trans := c.trans ++ List.replicate I.stride unknownId }
    if !I.quitset.isEmpty && !isSentinel I id then
      I.quitset.foldlM
        (fun _ b => setTransition I id (I.classOf b) (quitId I)) ()
      else CacheM.pure ()
    CacheM.modify fun c =>
      { c with memoryUsageState := c.memoryUsageState + state.mem,
               states := c.states ++ [state],
               statesToId := mapInsert c.statesToId state id }
    CacheM.pure id

/-- From `hybrid/dfa.rs::DFA::next_state_id`: allocate
`LazyStateID::new(trans.len())`, clearing the cache and retrying (with an
`unwrap`) when the ID space is exhausted. -/
def nextStateId (I : InertDFA) : Nat → CacheM LazyStateID
  | 0 => CacheM.throw .fuel
  | fuel + 1 => do
    let c ← CacheM.get
    match lazyIdNew I.idLimit c.trans.length with
    | .ok sid => CacheM.pure sid
    | .error _ => do
      tryClearCache I fuel
      let c ← CacheM.get
      match lazyIdNew I.idLimit c.trans.length with
      | .ok sid => CacheM.pure sid
      | .error _ => CacheM.throw .crash

end

/-- From `hybrid/dfa.rs::DFA::add_builder_state`: reuse a cached state
when the builder's bytes are already in the deduplication map, otherwise
add the built state. -/
def addBuilderState (I : InertDFA) (fuel : Nat) (builder : DState)
    (idmap : LazyStateID → LazyStateID) : CacheM LazyStateID := do
  let c ← CacheM.get
  match mapLookup c.statesToId builder with
  | some cachedId => CacheM.pure cachedId
  | none => addState I fuel builder idmap

/-- From `hybrid/dfa.rs::DFA::cache_next_state`: run one determinization
step from the cached state of `current`; when the new state does not fit
in the cache, request that `current` be saved across the impending clear;
add the new state; re-resolve `current` through the saver; and install
the computed transition. -/
def cacheNextState (I : InertDFA) (fuel : Nat) (current : LazyStateID)
    (unit : Nat) : CacheM LazyStateID := do
  let curState ← getState I current
  let builder := I.detNext curState unit
  let doSave := !stateFitsInCache I (← CacheM.get) builder
  if doSave then saveState I current else CacheM.pure ()
  let next ← addBuilderState I fuel builder (fun sid => sid)
  let current ← if doSave then savedStateId else CacheM.pure current
  setTransition I current unit next
  CacheM.pure next

/-- From `hybrid/dfa.rs::DFA::next_state`: follow the cached transition
for the byte's equivalence class; an unknown entry forces one
determinization step. -/
def nextState (I : InertDFA) (fuel : Nat) (current : LazyStateID)
    (input : Nat) : CacheM LazyStateID := fun c =>
  let class_ := I.classOf input
  match c.trans.get? (current.index + class_) with
  | none => (.error .crash, c)
  | some sid =>
    if !sid.unknown then (.ok sid, c)
    else cacheNextState I fuel current class_ c

/-- From `hybrid/dfa.rs::DFA::next_eoi_state`. -/
def nextEoiState (I : InertDFA) (fuel : Nat) (current : LazyStateID) :
    CacheM LazyStateID := fun c =>
  let eoi := I.alphabetLen - 1
  match c.trans.get? (current.index + eoi) with
  | none => (.error .crash, c)
  | some sid =>
    if !sid.unknown then (.ok sid, c)
    else cacheNextState I fuel current eoi c

/-- From `hybrid/dfa.rs::DFA::cache_start_one`: build the start state's
closure and add it tagged as a start state. -/
def cacheStartOne (I : InertDFA) (fuel : Nat) (patternId : Option Nat)
    (start : Nat) : CacheM LazyStateID :=
  addBuilderState I fuel (I.startClosure patternId start)
    (fun id => id.toStart)

/-- From `hybrid/dfa.rs::DFA::cache_start_group`. -/
def cacheStartGroup (I : InertDFA) (fuel : Nat) (patternId : Option Nat)
    (start : Nat) : CacheM LazyStateID := do
  let id ← cacheStartOne I fuel patternId start
  setStartState I patternId start id
  CacheM.pure id

/-- From `hybrid/dfa.rs::DFA::start_state_forward`. -/
def startStateForward (I : InertDFA) (fuel : Nat)
    (patternId : Option Nat) (bytes : List Nat) (start stop : Nat) :
    CacheM LazyStateID := do
  let startType := I.startKindFwd bytes start stop
  let sid ← getCachedStart I patternId startType
  if !sid.unknown then CacheM.pure sid
  else cacheStartGroup I fuel patternId startType

/-- From `hybrid/dfa.rs::DFA::match_pattern` (single-pattern fast path,
otherwise read the cached state's pattern list). -/
def matchPattern (I : InertDFA) (sid : LazyStateID) (matchIndex : Nat) :
    CacheM Nat :=
  if I.patternCount == 1 then CacheM.pure 0
  else do
    let st ← getState I sid
    match st.patterns.get? matchIndex with
    | some p => CacheM.pure p
    | none => CacheM.throw .crash

/-- From `hybrid/dfa.rs::Cache::new`: initialize an empty cache. The
`Except` component reports a failed initialization (a panic in Rust). -/
def cacheNew (I : InertDFA) (fuel : Nat) : Except CErr Unit × Cache :=
  initCache I fuel Cache.empty

/-- From `hybrid/dfa.rs::DFA::reset_cache`: drop any saved state, clear,
and zero the clear count. -/
def resetCache (I : InertDFA) (fuel : Nat) : CacheM Unit := do
  CacheM.modify fun c => { c with stateSaver := .none }
  clearCache I fuel
  CacheM.modify fun c => { c with clearCount := 0 }


/-- The ID that `add_state` computes for a newly added state: the next
free untagged ID passed through `idmap`, with the match tag added for
match states. -/
def newStateId (c : Cache) (state : DState)
    (idmap : LazyStateID → LazyStateID) : LazyStateID :=
  if state.isMatch then (idmap { index := c.trans.length }).toMatch
  else idmap { index := c.trans.length }

/-- The start-table length computed by `init_cache`. -/
def startsLenI (I : InertDFA) : Nat :=
  I.startCount
    + (if I.startsForEachPattern then I.startCount * I.patternCount else 0)

/-- Memory needed so that initializing a cache never itself triggers a
clear: the capacity consumed by the start table, the fixed scratch
structures, and three sentinel-state additions. `InertDFA::new` checks a
(larger) minimum capacity at construction time. -/
def initRequired (I : InertDFA) : Nat :=
  startsLenI I * I.idSize + I.fixedMem + 3 * memoryUsageForOneMoreState I 0

/-- The transition table of a freshly initialized cache: three rows for
the unknown/dead/quit sentinels, each a self-loop on every alphabet
unit. -/
def initTrans (I : InertDFA) : List LazyStateID :=
  (List.range I.alphabetLen).foldl
    (fun t u => t.set (2 * I.stride + u) (quitId I))
    ((List.range I.alphabetLen).foldl
      (fun t u => t.set (I.stride + u) (deadId I))
      ((List.range I.alphabetLen).foldl
        (fun t u => t.set u unknownId)
        (List.replicate I.stride unknownId
          ++ (List.replicate I.stride unknownId
            ++ List.replicate I.stride unknownId))))

/-- The observable state of a freshly initialized cache (`Cache::new`):
sentinel rows, an all-unknown start table, the three sentinel (dead-set)
states, the canonical dead state in the map, no saved state and a zero
clear count. -/
def freshCache (I : InertDFA) : Cache :=
  ⟨initTrans I, List.replicate (startsLenI I) unknownId,
    [DState.dead, DState.dead, DState.dead], [(DState.dead, deadId I)],
    .none, 0, 0⟩

/-! ### hybrid/search.rs : the forward search -/

/-- The outcome of a search: a value, a search error, or an aborted model
run (a Rust panic, or fuel exhaustion). -/
inductive SRes (α : Type) where
  | ok (val : α)
  | err (e : MatchErrorKind)
  | abort (e : CErr)
deriving DecidableEq, Repr

/-- A prefilter, as used by `find_fwd_imp`: given the haystack and the
span to scan, report the next candidate position, or `none` for no
candidate (`pre.find(..).into_option()`). -/
def PreFn : Type := List Nat → Nat → Nat → Option Nat

/-- From `hybrid/search.rs::gave_up` composed with `.map_err(|_| ..)`: a
cache error surfaces as `GaveUp` at the current offset, while a modelled
panic or fuel exhaustion aborts the run. -/
def liftCacheErr (offset : Nat) : CErr → SRes α
  | .tooManyCacheResets => .err (.gaveUp offset)
  | e => .abort e

/-- From `hybrid/search.rs::eoi_fwd`: feed the byte at the span's end (or
the EOI unit at the haystack's end) and report a match if one is
reached. -/
def eoiFwd (I : InertDFA) (fuel : Nat) (hay : List Nat) (stop : Nat)
    (sid : LazyStateID) (out : Option HalfMatchS) (c : Cache) :
    SRes (Option HalfMatchS) × Cache :=
  match hay.get? stop with
  | some b =>
    match nextState I fuel sid b c with
    | (.error e, c) => (liftCacheErr stop e, c)
    | (.ok sid, c) =>
      if sid.isMatch then
        match matchPattern I sid 0 c with
        | (.error e, c) => (.abort e, c)
        | (.ok p, c) => (.ok (some ⟨p, stop⟩), c)
      else (.ok out, c)
  | none =>
    match nextEoiState I fuel sid c with
    | (.error e, c) => (liftCacheErr hay.length e, c)
    | (.ok sid, c) =>
      if sid.isMatch then
        match matchPattern I sid 0 c with
        | (.error e, c) => (.abort e, c)
        | (.ok p, c) => (.ok (some ⟨p, hay.length⟩), c)
      else (.ok out, c)

/-- The main loop of `hybrid/search.rs::find_fwd_imp`. The source unrolls
runs of untagged transitions for speed; the unrolled loop computes, for
each position, exactly `next_state` followed by the tagged-state
dispatch, which is the form embedded here. The loop is fueled because the
prefilter arm re-enters the loop without advancing `at`. -/
def findFwdLoop (I : InertDFA) : Nat → List Nat → Nat → Option PreFn →
    Bool → LazyStateID → Nat → Option HalfMatchS → Cache →
    SRes (Option HalfMatchS) × Cache
  | 0, _, _, _, _, _, _, _, c => (.abort .fuel, c)
  | fuel + 1, hay, stop, pre, earliest, sid, at_, out, c =>
    if at_ < stop then
      match hay.get? at_ with
      | none => (.abort .crash, c)
      | some byte =>
        match nextState I fuel sid byte c with
        | (.error e, c) => (liftCacheErr at_ e, c)
        | (.ok sid, c) =>
          if sid.isTagged then
            if sid.start then
              match pre with
              | some f =>
                match f hay at_ stop with
                | none => (.ok out, c)
                | some i =>
                  findFwdLoop I fuel hay stop pre earliest sid i out c
              | none =>
                findFwdLoop I fuel hay stop pre earliest sid (at_ + 1) out c
            else if sid.isMatch then
              match matchPattern I sid 0 c with
              | (.error e, c) => (.abort e, c)
              | (.ok p, c) =>
                let out := some (⟨p, at_⟩ : HalfMatchS)
                if earliest then (.ok out, c)
                else findFwdLoop I fuel hay stop pre earliest sid (at_ + 1)
                  out c
            else if sid.dead then (.ok out, c)
            else if sid.quit then
              if out.isSome then (.ok out, c)
              else (.err (.quit byte at_), c)
            else (.abort .crash, c)
          else findFwdLoop I fuel hay stop pre earliest sid (at_ + 1) out c
    else eoiFwd I fuel hay stop sid out c

/-- From `hybrid/search.rs::find_fwd_imp`: resolve the start state, run
the prefilter once from the start position, then scan. -/
def findFwdImp (I : InertDFA) (fuel : Nat) (hay : List Nat)
    (start stop : Nat) (pre : Option PreFn) (earliest : Bool)
    (patternId : Option Nat) (c : Cache) :
    SRes (Option HalfMatchS) × Cache :=
  match startStateForward I fuel patternId hay start stop c with
  | (.error e, c) => (liftCacheErr start e, c)
  | (.ok sid, c) =>
    match pre with
    | some f =>
      match f hay start stop with
      | none => (.ok none, c)
      | some i => findFwdLoop I fuel hay stop pre earliest sid i none c
    | none => findFwdLoop I fuel hay stop pre earliest sid start none c

/-- From `hybrid/search.rs::find_fwd`: an exhausted input finds nothing;
a prefilter is only used without a pattern restriction; then dispatch to
the implementation. -/
def findFwd (I : InertDFA) (fuel : Nat) (hay : List Nat)
    (start stop : Nat) (pre : Option PreFn) (earliest : Bool)
    (patternId : Option Nat) (c : Cache) :
    SRes (Option HalfMatchS) × Cache :=
  if start > stop then (.ok none, c)
  else
    let pre := if patternId.isNone then pre else none
    findFwdImp I fuel hay start stop pre earliest patternId c

end Hybrid

/-! ## determinize.rs : `DeterminizerState` and `Determinizer::new_state` -/

/-- From the `nfa::State` variants used by `determinize.rs`: byte-range
transitions, unions of alternatives, and the match state. -/
inductive NfaState01 where
  | range (start stop next : Nat)
  | union (alternates : List Nat)
  | matchS
deriving DecidableEq, Repr

/-- Whether an NFA state is a `Range` state. -/
def NfaState01.isRange : NfaState01 → Bool
  | .range _ _ _ => true
  | _ => false

/-- Whether an NFA state is the `Match` state. -/
def NfaState01.isMatchState : NfaState01 → Bool
  | .matchS => true
  | _ => false

/-- From `determinize.rs::DeterminizerState`: an ordered set of NFA state
IDs plus a match flag. -/
structure DeterminizerState where
  isMatch : Bool
  nfaStates : List Nat
deriving DecidableEq, Repr

/-- From `determinize.rs::Determinizer::new_state`: scan the ordered
epsilon-closure set, pushing `Range` states, skipping `Union` states, and
on a `Match` state setting the match flag and, unless `longest_match` is
enabled, stopping the scan. -/
def newState (nfa : Nat → NfaState01) (longestMatch : Bool) :
    List Nat → DeterminizerState
  | [] => ⟨false, []⟩
  | id :: rest =>
    match nfa id with
    | .range _ _ _ =>
      let s := newState nfa longestMatch rest
      ⟨s.isMatch, id :: s.nfaStates⟩
    | .matchS =>
      if longestMatch then ⟨true, (newState nfa longestMatch rest).nfaStates⟩
      else ⟨true, []⟩
    | .union _ => newState nfa longestMatch rest

end RegexAutomata

namespace RegexAutomata

/-- Modelled from the spec: `Search::step_one` (absent from
`matchtypes.rs`) advances the search start by one unit — one byte, or one
codepoint (via `next_utf8`) in UTF-8 mode. -/
def SearchMT.stepOne (s : SearchMT) : SearchMT :=
  s.setStart (if s.utf8 then nextUtf8 s.haystack s.span.start
              else s.span.start + 1)

/-- From `util/iter.rs::TryMatches`: the mutable iterator state — the
search configuration and the end offset of the most recent match. The
finder closure is passed explicitly. -/
structure IterState where
  search : SearchMT
  lastMatchEnd : Option Nat
deriving DecidableEq, Repr

/-- The observable outcome of one `TryMatches::next` call: iterator
exhausted (`None`), a surfaced search error (`Some(Err(..))`), a yielded
match (`Some(Ok(..))`), or a modelled panic (the `assert!` in
`handle_empty2`). -/
inductive IterRes where
  | done
  | err (e : MatchErrorKind)
  | found (m : MatchMT)
  | crash
deriving DecidableEq, Repr

/-- From `util/iter.rs::TryMatches::handle_empty2`: `self.search.step()`
is commented out in the source; only when the empty match ends at the
previous match's end offset is the search stepped (`step_one`) and the
finder re-run. -/
def handleEmpty2 (finder : SearchMT → Except MatchErrorKind (Option MatchMT))
    (st : IterState) (m : MatchMT) : IterRes × IterState :=
  if !m.isEmpty then (.crash, st)
  else if some m.stop == st.lastMatchEnd then
    let search := st.search.stepOne
    match finder search with
    | .error e => (.err e, { st with search })
    | .ok Option.none => (.done, { st with search })
    | .ok (some m2) => (.found m2, { st with search })
  else (.found m, st)

/-- From `util/iter.rs::TryMatches::next` (the `Iterator`
implementation): run the finder, divert empty matches through
`handle_empty2`, then record the yielded match's end as both the next
search start and `last_match_end`. -/
def tryMatchesNext
    (finder : SearchMT → Except MatchErrorKind (Option MatchMT))
    (st : IterState) : IterRes × IterState :=
  match finder st.search with
  | .error e => (.err e, st)
  | .ok Option.none => (.done, st)
  | .ok (some m) =>
    let r := if m.isEmpty then handleEmpty2 finder st m else (.found m, st)
    match r with
    | (.found m2, st1) =>
      (.found m2, { st1 with search := st1.search.setStart m2.stop,
                             lastMatchEnd := some m2.stop })
    | other => other

/-- A concrete finder for exercising the iterator: an empty match at
offset 1 while the search starts at 0, nothing afterwards. -/
def finderW5 : SearchMT → Except MatchErrorKind (Option MatchMT) :=
  fun s => if s.span.start == 0 then .ok (some ⟨0, ⟨1, 1⟩⟩)
           else .ok Option.none

/-- An iterator state whose previous match ended at offset 1, searching
`[97]` in byte mode from 0. -/
def stW5 : IterState := ⟨⟨[97], ⟨0, 1⟩, Option.none, false, false⟩, some 1⟩

/-- A constant finder returning an empty match at offset 0. -/
def finderC5 : SearchMT → Except MatchErrorKind (Option MatchMT) :=
  fun _ => .ok (some ⟨0, ⟨0, 0⟩⟩)

/-- A fresh iterator state over `[97]` in byte mode. -/
def stC5 : IterState := ⟨⟨[97], ⟨0, 1⟩, Option.none, false, false⟩,
  Option.none⟩

namespace Hybrid

/-- A concrete three-state lazy DFA used to exercise the cache model: a
start state that moves to a transient state on class 0 and to another on
class 1, everything else dead. The cache capacity only fits one state
beyond the sentinels, and at most one cache clear is allowed. -/
def s0x : DState := ⟨false, [], [10], 1⟩

def s1x : DState := ⟨false, [], [11], 1⟩

def tx : DState := ⟨false, [], [12], 1⟩

def CX9 : InertDFA where
  detNext := fun s u =>
    if s == s0x && u == 0 then s1x
    else if s == s0x && u == 1 then tx
    else DState.dead
  startClosure := fun _ _ => s0x
  classOf := fun b => if b == 2 then 1 else 0
  startKindFwd := fun _ _ _ => 0
  startCount := 1
  alphabetLen := 3
  stride2 := 2
  quitset := []
  cacheCapacity := 30
  minimumCacheClearCount := some 1
  startsForEachPattern := false
  patternCount := 1
  idLimit := 1000000
  idSize := 1
  stateSize := 1
  fixedMem := 0

/-- A cache for `CX9` after one prior search (over the haystack `[0]`). -/
def usedC9 : Cache :=
  (findFwd CX9 12 [0] 0 1 Option.none false Option.none
    (cacheNew CX9 12).2).2

/-- A cache computation that can never fail with the
`too_many_cache_resets` cache error (it may still crash or run out of
fuel). -/
def NoTM {α : Type} (x : CacheM α) : Prop :=
  ∀ c, (x c).1 ≠ .error .tooManyCacheResets

/-- A concrete lazy DFA with a clear budget of one
(`minimum_cache_clear_count = Some(1)`). -/
def CX3 : InertDFA where
  detNext := fun _ _ => DState.dead
  startClosure := fun _ _ => DState.dead
  classOf := fun _ => 0
  startKindFwd := fun _ _ _ => 0
  startCount := 1
  alphabetLen := 3
  stride2 := 2
  quitset := []
  cacheCapacity := 30
  minimumCacheClearCount := some 1
  startsForEachPattern := false
  patternCount := 1
  idLimit := 1000000
  idSize := 1
  stateSize := 1
  fixedMem := 0

/-- `CX3` with a clear budget of zero. -/
def CXmin0 : InertDFA := { CX3 with minimumCacheClearCount := some 0 }

/-- A concrete lazy DFA with quit byte 1 (byte class 1): the start state
matches after reading class 0, everything else is dead. -/
def CX2 : InertDFA where
  detNext := fun s u =>
    if s == ⟨false, [], [10], 1⟩ && u == 0 then ⟨true, [0], [20], 1⟩
    else DState.dead
  startClosure := fun _ _ => ⟨false, [], [10], 1⟩
  classOf := fun b => if b == 0 then 0 else 1
  startKindFwd := fun _ _ _ => 0
  startCount := 1
  alphabetLen := 3
  stride2 := 2
  quitset := [1]
  cacheCapacity := 1000000
  minimumCacheClearCount := Option.none
  startsForEachPattern := false
  patternCount := 1
  idLimit := 1000000
  idSize := 1
  stateSize := 1
  fixedMem := 0

/-- A cache for `CX2` whose state 0 already has its quit-byte transition
(class 1) pointing at the quit state, as `add_state` installs it. -/
def cacheQ2 : Cache :=
  ⟨[unknownId, quitId CX2, unknownId, unknownId], [], [], [], .none, 0, 0⟩

/-- The ID under which `clear_cache` re-adds the saved state: the first
free slot after the three sentinels, with the start tag copied from the
old ID and the match tag from the state. -/
def savedReAddId (I : InertDFA) (oldId : LazyStateID)
    (oldState : DState) : LazyStateID :=
  newStateId (freshCache I) oldState
    (fun id => if oldId.start then id.toStart else id)

/-- The ID `add_state` hands out for a state added when the transition
table has `len` entries and the ID map is the identity. -/
def plainAddId (I : InertDFA) (len : Nat) (state : DState) : LazyStateID :=
  if state.isMatch then ({ index := len } : LazyStateID).toMatch
  else { index := len }

/-- The originating state ID for the C4 scenario: the first non-sentinel
slot, tagged as a start state. -/
def cur4 : LazyStateID := { index := 12, start := true }

/-- A `CX9` cache holding the start state `s0x` only, nearly full: adding
one more state exceeds the capacity. -/
def cW4 : Cache :=
  ⟨initTrans CX9 ++ List.replicate 4 unknownId,
   [cur4],
   [DState.dead, DState.dead, DState.dead, s0x],
   [(s0x, cur4), (DState.dead, deadId CX9)],
   .none, 1, 0⟩

/-- The untagged ID of the second non-sentinel cache slot. -/
def t16 : LazyStateID := { index := 16 }

/-- The sentinel rows of a fresh `CX9` cache, as a literal list. -/
def itl9 : List LazyStateID :=
  [unknownId, unknownId, unknownId, unknownId,
   deadId CX9, deadId CX9, deadId CX9, unknownId,
   quitId CX9, quitId CX9, quitId CX9, unknownId]

/-- The cache after the first search's forced clear and re-population. -/
def cA2 : Cache :=
  ⟨itl9 ++ [t16, unknownId, unknownId, unknownId,
            unknownId, unknownId, unknownId, unknownId],
   [unknownId], [DState.dead, DState.dead, DState.dead, s0x, s1x],
   [(s1x, t16), (s0x, cur4), (DState.dead, deadId CX9)], .none, 2, 1⟩

/-- The cache at the end of the first search (EOI transition cached). -/
def cA3 : Cache :=
  ⟨itl9 ++ [t16, unknownId, unknownId, unknownId,
            unknownId, unknownId, deadId CX9, unknownId],
   [unknownId], [DState.dead, DState.dead, DState.dead, s0x, s1x],
   [(s1x, t16), (s0x, cur4), (DState.dead, deadId CX9)], .none, 2, 1⟩

/-- `cA3` after the second search re-resolves its start state. -/
def cB1 : Cache :=
  ⟨itl9 ++ [t16, unknownId, unknownId, unknownId,
            unknownId, unknownId, deadId CX9, unknownId],
   [cur4], [DState.dead, DState.dead, DState.dead, s0x, s1x],
   [(s1x, t16), (s0x, cur4), (DState.dead, deadId CX9)], .none, 2, 1⟩

/-- `cB1` at the moment the shared-cache search gives up (a save was
requested for the in-progress step before the clear budget ran out). -/
def cB2 : Cache :=
  ⟨itl9 ++ [t16, unknownId, unknownId, unknownId,
            unknownId, unknownId, deadId CX9, unknownId],
   [cur4], [DState.dead, DState.dead, DState.dead, s0x, s1x],
   [(s1x, t16), (s0x, cur4), (DState.dead, deadId CX9)],
   .toSave cur4 s0x, 2, 1⟩

/-- The fresh-cache `[2]` search after its forced clear. -/
def cC2 : Cache :=
  ⟨itl9 ++ [unknownId, t16, unknownId, unknownId,
            unknownId, unknownId, unknownId, unknownId],
   [unknownId], [DState.dead, DState.dead, DState.dead, s0x, tx],
   [(tx, t16), (s0x, cur4), (DState.dead, deadId CX9)], .none, 2, 1⟩

/-- The fresh-cache `[2]` search's final cache. -/
def cC3 : Cache :=
  ⟨itl9 ++ [unknownId, t16, unknownId, unknownId,
            unknownId, unknownId, deadId CX9, unknownId],
   [unknownId], [DState.dead, DState.dead, DState.dead, s0x, tx],
   [(tx, t16), (s0x, cur4), (DState.dead, deadId CX9)], .none, 2, 1⟩

end Hybrid
end RegexAutomata

namespace RegexAutomata

/-! ## Bit-manipulation helper lemmas -/

theorem testBit_false_of_lt_pow {x n : Nat} (h : x < 2 ^ n) {k : Nat}
    (hk : n ≤ k) : x.testBit k = false := by
  apply Nat.testBit_eq_false_of_lt
  calc x < 2 ^ n := h
  _ ≤ 2 ^ k := Nat.pow_le_pow_right (by norm_num) hk

theorem lor_shiftLeft_shiftRight (a b n : Nat) (hb : b < 2 ^ n) :
    ((a <<< n) ||| b) >>> n = a := by
  apply Nat.eq_of_testBit_eq
  intro i
  rw [Nat.testBit_shiftRight, Nat.testBit_lor, Nat.testBit_shiftLeft]
  rw [testBit_false_of_lt_pow hb (Nat.le_add_right n i)]
  simp [Nat.le_add_right, Nat.add_sub_cancel_left]

theorem lor_shiftLeft_mod (a b n : Nat) (hb : b < 2 ^ n) :
    ((a <<< n) ||| b) % 2 ^ n = b := by
  apply Nat.eq_of_testBit_eq
  intro i
  rw [Nat.testBit_mod_two_pow, Nat.testBit_lor, Nat.testBit_shiftLeft]
  by_cases hi : i < n
  · simp [hi, Nat.not_le.mpr hi]
  · simp only [decide_eq_false hi, Bool.false_and]
    symm
    exact testBit_false_of_lt_pow hb (Nat.le_of_not_lt hi)

theorem mod_two_pow_congr {x y : Nat} (n : Nat)
    (h : ∀ k, k < n → x.testBit k = y.testBit k) : x % 2 ^ n = y % 2 ^ n := by
  apply Nat.eq_of_testBit_eq
  intro i
  rw [Nat.testBit_mod_two_pow, Nat.testBit_mod_two_pow]
  by_cases hi : i < n
  · simp [hi, h i hi]
  · simp [hi]

theorem ne_zero_of_testBit {x k : Nat} (h : x.testBit k = true) : x ≠ 0 := by
  intro h0
  rw [h0, Nat.zero_testBit] at h
  exact Bool.false_ne_true h

/-! ## Claim theorems for C10, C8, C6 -/

theorem utf8Len_getD_pos (b : Nat) : 1 ≤ (utf8Len b).getD 1 := by
  unfold utf8Len
  repeat' split
  all_goals simp

theorem nextUtf8_gt (text : List Nat) (i : Nat) : i < nextUtf8 text i := by
  unfold nextUtf8
  split
  · omega
  · rename_i b _
    have := utf8Len_getD_pos b
    omega

theorem searchStep_gt (s : SearchMT) : s.span.start < s.step.span.start := by
  show s.span.start <
    (if s.utf8 then nextUtf8 s.haystack s.span.start else s.span.start + 1)
  split
  · exact nextUtf8_gt s.haystack s.span.start
  · omega

/-- Claim C10: for every byte slice `text` and index `i`, `next_utf8(text,
i)` is strictly greater than `i`; consequently `Search::step` strictly
increases the search's start offset in both UTF-8 and byte modes, and `n`
steps advance the start by at least `n`, which bounds match-iteration on a
finite haystack. -/
theorem next_utf8_strict_progress :
    (∀ (text : List Nat) (i : Nat), i < nextUtf8 text i) ∧
    (∀ s : SearchMT, s.span.start < s.step.span.start) ∧
    (∀ (s : SearchMT) (n : Nat),
      s.span.start + n ≤ (SearchMT.step^[n] s).span.start) := by
  refine ⟨nextUtf8_gt, searchStep_gt, ?_⟩
  intro s n
  induction n generalizing s with
  | zero => simp
  | succ k ih =>
    rw [Function.iterate_succ_apply]
    have h1 := searchStep_gt s
    have h2 := ih s.step
    omega

/-- Claim C8: the `Match` constructor in `util/matchtypes.rs` does not
reject spans with `end < start`, although its documentation promises a
panic: `Match::new(0, 1, 0)` is constructed as-is, yielding a match whose
start exceeds its end. The sibling constructor in `util/search.rs` does
reject the same span. -/
theorem match_new_accepts_inverted_span :
    (MatchMT.new 0 1 0).span.start = 1 ∧
    (MatchMT.new 0 1 0).span.stop = 0 ∧
    ¬ (MatchMT.new 0 1 0).start ≤ (MatchMT.new 0 1 0).stop ∧
    MatchSNew 0 ⟨1, 0⟩ = none := by decide

/-- Claim C1: for `try_search`, `try_search_half` and
`try_which_overlapping_matches` of the meta engine's `Core` strategy, when
the selected DFA engine (the full DFA when available, else the lazy DFA)
returns a search error of kind `Quit` or `GaveUp`, the meta engine does
not return that error but instead returns the fallback engine's result on
the same search (for half searches, converted to a half match); an error
of any other kind is returned unchanged. -/
theorem meta_fallback_on_quit_or_gaveup :
    (∀ (dfa hybrid : Option (Except MatchErrorKind (Option MatchS)))
        (nofail : Except MatchErrorKind (Option MatchS))
        (err : MatchErrorKind),
      dfa.orElse (fun _ => hybrid) = some (.error err) →
      trySearch dfa hybrid nofail
        = if isErrQuitOrGaveup err then nofail else .error err) ∧
    (∀ (dfa hybrid : Option (Except MatchErrorKind (Option HalfMatchS)))
        (nofail : Except MatchErrorKind (Option MatchS))
        (err : MatchErrorKind),
      dfa.orElse (fun _ => hybrid) = some (.error err) →
      trySearchHalf dfa hybrid nofail
        = if isErrQuitOrGaveup err then
            (match nofail with
             | .error e => .error e
             | .ok matched =>
               .ok (matched.map fun m => ⟨m.pattern, m.span.stop⟩))
          else .error err) ∧
    (∀ (e : OverlappingEngine) (hybrid : Option OverlappingEngine)
        (pikevm : OverlappingEngine) (patset ps : PatSet)
        (err : MatchErrorKind),
      e patset = (some err, ps) →
      tryWhichOverlappingMatches (some e) hybrid pikevm patset
        = if isErrQuitOrGaveup err then pikevm ps else (some err, ps)) ∧
    (∀ (e : OverlappingEngine) (pikevm : OverlappingEngine)
        (patset ps : PatSet) (err : MatchErrorKind),
      e patset = (some err, ps) →
      tryWhichOverlappingMatches none (some e) pikevm patset
        = if isErrQuitOrGaveup err then pikevm ps else (some err, ps)) := by
  refine ⟨?_, ?_, ?_, ?_⟩
  · intro dfa hybrid nofail err h
    match dfa, hybrid with
    | some (.ok m), _ => simp [Option.orElse] at h
    | some (.error e), _ =>
      simp only [Option.orElse] at h
      cases h
      simp only [trySearch, trySearchMayfail]
      cases herr : isErrQuitOrGaveup err <;> simp [herr]
    | none, some (.ok m) => simp [Option.orElse] at h
    | none, some (.error e) =>
      simp only [Option.orElse] at h
      cases h
      simp only [trySearch, trySearchMayfail]
      cases herr : isErrQuitOrGaveup err <;> simp [herr]
    | none, none => simp [Option.orElse] at h
  · intro dfa hybrid nofail err h
    match dfa, hybrid with
    | some (.ok m), _ => simp [Option.orElse] at h
    | some (.error e), _ =>
      simp only [Option.orElse] at h
      cases h
      simp only [trySearchHalf, trySearchHalfMayfail]
      cases herr : isErrQuitOrGaveup err <;> simp [herr]
    | none, some (.ok m) => simp [Option.orElse] at h
    | none, some (.error e) =>
      simp only [Option.orElse] at h
      cases h
      simp only [trySearchHalf, trySearchHalfMayfail]
      cases herr : isErrQuitOrGaveup err <;> simp [herr]
    | none, none => simp [Option.orElse] at h
  · intro e hybrid pikevm patset ps err h
    simp only [tryWhichOverlappingMatches, h]
    cases herr : isErrQuitOrGaveup err <;> simp [herr]
  · intro e pikevm patset ps err h
    simp only [tryWhichOverlappingMatches, h]
    cases herr : isErrQuitOrGaveup err <;> simp [herr]

/-- Witness for C1 at concrete inputs: a lazy DFA that gave up at offset 3
is replaced by the fallback result, while a `HaystackTooLong` error from
the full DFA propagates unchanged. -/
theorem meta_fallback_on_quit_or_gaveup_witness :
    trySearch none (some (.error (.gaveUp 3))) (.ok none) = .ok none ∧
    trySearch (some (.error (.haystackTooLong 7))) none (.ok none)
      = .error (.haystackTooLong 7) := by
  constructor
  · have h := meta_fallback_on_quit_or_gaveup.1 none
      (some (.error (.gaveUp 3))) (.ok none) (.gaveUp 3) rfl
    simpa using h
  · have h := meta_fallback_on_quit_or_gaveup.1
      (some (.error (.haystackTooLong 7))) none (.ok none)
      (.haystackTooLong 7) rfl
    simpa using h

/-- Claim C6: `Determinizer::new_state` builds, under leftmost-first
semantics (`longest_match = false`), a state from exactly the `Range` NFA
states that occur in the closure before the first `Match` state, so no
lower-priority state is included; under longest-match/All semantics it
includes every `Range` state of the closure; and in both modes the state's
match flag is set exactly when the closure contains a `Match` state. -/
theorem determinizer_new_state_spec (nfa : Nat → NfaState01) (set : List Nat) :
    ((newState nfa false set).nfaStates
      = (set.takeWhile (fun id => !(nfa id).isMatchState)).filter
          (fun id => (nfa id).isRange)) ∧
    ((newState nfa true set).nfaStates
      = set.filter (fun id => (nfa id).isRange)) ∧
    (∀ longestMatch : Bool,
      (newState nfa longestMatch set).isMatch
        = set.any (fun id => (nfa id).isMatchState)) := by
  induction set with
  | nil => simp [newState]
  | cons id rest ih =>
    obtain ⟨ih1, ih2, ih3⟩ := ih
    refine ⟨?_, ?_, ?_⟩
    · cases h : nfa id <;>
        simp [newState, h, List.takeWhile_cons, List.filter_cons,
          NfaState01.isMatchState, NfaState01.isRange, ih1]
    · cases h : nfa id <;>
        simp [newState, h, List.filter_cons,
          NfaState01.isMatchState, NfaState01.isRange, ih2]
    · intro longestMatch
      cases h : nfa id <;>
        cases longestMatch <;>
        simp [newState, h, List.any_cons,
          NfaState01.isMatchState, ih3]

theorem maskInfo_and_lt (x : Nat) : x &&& maskInfo < 2 ^ 32 := by
  have h : x &&& maskInfo = x % 2 ^ 32 := by
    simpa [maskInfo] using Nat.and_pow_two_sub_one_eq_mod x 32
  rw [h]
  exact Nat.mod_lt x (by norm_num)

theorem maskPatterns_testBit_low {k : Nat} (hk : k < 32) (x : Nat) :
    (x &&& maskPatterns).testBit k = false := by
  rw [Nat.testBit_land, maskPatterns, Nat.testBit_shiftLeft]
  simp [Nat.not_le.mpr hk]

theorem maskPatterns_testBit_high (x k : Nat) :
    (x &&& maskPatterns).testBit (32 + k)
      = (x.testBit (32 + k) && decide (k < 32)) := by
  have hle : 32 ≤ 32 + k := Nat.le_add_right 32 k
  rw [Nat.testBit_land, maskPatterns, Nat.testBit_shiftLeft,
    decide_eq_true hle, Bool.true_and, Nat.add_sub_cancel_left,
    Nat.testBit_two_pow_sub_one]

/-- Claim C7: the one-pass DFA's 64-bit cell packing is bit-exact.
`Transition::new(sid, i)` stores `sid` in bits 32-63 (so `state_id()`
returns `sid`) and `i` in bits 0-31; `Info::slot_insert(s)` requires
`s < 24` and sets bit `8 + s`; `Info::look_insert` only sets bits 0-7
while `look_contains`/`look_is_empty` read only those bits; a
`PatternInfo` keeps the pattern bit-set in bits 32-63 and the `Info` in
bits 0-31 with all four accessors round-tripping without disturbing the
other half; and `Patterns::insert`/`contains` require pattern IDs below
32. -/
theorem onepass_cell_packing
    (sid info i slot look i₁ i₂ x p inf pid : Nat)
    (hinfo : info < 2 ^ 32) (hlook : look < 256)
    (hlow : i₁ % 256 = i₂ % 256)
    (hp : p < 2 ^ 32) (hinf : inf < 2 ^ 32) :
    (transitionStateId (transitionNew sid info) = sid) ∧
    (transitionNew sid info % 2 ^ 32 = info) ∧
    (slot < infoMaxSlots →
      infoSlotInsert i slot = some (i ||| (1 <<< (8 + slot))) ∧
      (i ||| (1 <<< (8 + slot))).testBit (8 + slot) = true) ∧
    (infoMaxSlots ≤ slot → infoSlotInsert i slot = none) ∧
    (∀ k, 8 ≤ k → (infoLookInsert i look).testBit k = i.testBit k) ∧
    (infoLookContains i₁ look = infoLookContains i₂ look) ∧
    (infoLookIsEmpty i₁ = infoLookIsEmpty i₂) ∧
    (patternInfoPatterns (patternInfoSetPatterns x p) = p) ∧
    (patternInfoInfo (patternInfoSetPatterns x p) = patternInfoInfo x) ∧
    (patternInfoInfo (patternInfoSetInfo x inf) = inf) ∧
    (patternInfoPatterns (patternInfoSetInfo x inf)
      = patternInfoPatterns x) ∧
    (pid < patternsMax →
      patternsInsert p pid = some (p ||| (1 <<< pid)) ∧
      patternsContains (p ||| (1 <<< pid)) pid = some true) ∧
    (patternsMax ≤ pid →
      patternsInsert p pid = none ∧ patternsContains p pid = none) := by
  have h256 : (256 : Nat) = 2 ^ 8 := by norm_num
  have hand : i₁ &&& look = i₂ &&& look := by
    apply Nat.eq_of_testBit_eq
    intro k
    rw [Nat.testBit_land, Nat.testBit_land]
    by_cases hk : k < 8
    · have b1 : i₁.testBit k = (i₁ % 2 ^ 8).testBit k := by
        rw [Nat.testBit_mod_two_pow]
        simp [hk]
      have b2 : i₂.testBit k = (i₂ % 2 ^ 8).testBit k := by
        rw [Nat.testBit_mod_two_pow]
        simp [hk]
      rw [b1, b2, ← h256, hlow]
    · have hlk : look.testBit k = false :=
        testBit_false_of_lt_pow (h256 ▸ hlook) (Nat.le_of_not_lt hk)
      rw [hlk]
      simp
  refine ⟨?_, ?_, ?_, ?_, ?_, ?_, ?_, ?_, ?_, ?_, ?_, ?_, ?_⟩
  · exact lor_shiftLeft_shiftRight sid info 32 hinfo
  · exact lor_shiftLeft_mod sid info 32 hinfo
  · intro hs
    refine ⟨by simp [infoSlotInsert, hs], ?_⟩
    rw [Nat.testBit_lor, Nat.testBit_shiftLeft]
    simp
  · intro hs
    simp [infoSlotInsert, Nat.not_lt.mpr hs]
  · intro k hk
    have hlk : look.testBit k = false :=
      testBit_false_of_lt_pow (h256 ▸ hlook) hk
    rw [infoLookInsert, Nat.testBit_lor, hlk]
    simp
  · rw [infoLookContains, infoLookContains, hand]
  · have e1 : i₁ &&& 0b11111111 = i₁ % 256 := by
      simpa [h256] using Nat.and_pow_two_sub_one_eq_mod i₁ 8
    have e2 : i₂ &&& 0b11111111 = i₂ % 256 := by
      simpa [h256] using Nat.and_pow_two_sub_one_eq_mod i₂ 8
    rw [infoLookIsEmpty, infoLookIsEmpty, e1, e2, hlow]
  · rw [patternInfoPatterns, patternInfoSetPatterns, Nat.lor_comm,
      lor_shiftLeft_shiftRight p (x &&& maskInfo) 32 (maskInfo_and_lt x)]
    exact Nat.mod_eq_of_lt hp
  · rw [patternInfoInfo, patternInfoInfo, patternInfoSetPatterns,
      Nat.lor_comm,
      lor_shiftLeft_mod p (x &&& maskInfo) 32 (maskInfo_and_lt x)]
    simpa [maskInfo] using Nat.and_pow_two_sub_one_eq_mod x 32
  · rw [patternInfoInfo, patternInfoSetInfo]
    have h1 : (inf ||| (x &&& maskPatterns)) % 2 ^ 32 = inf % 2 ^ 32 := by
      apply mod_two_pow_congr
      intro k hk
      rw [Nat.testBit_lor, maskPatterns_testBit_low hk]
      simp
    rw [h1]
    exact Nat.mod_eq_of_lt hinf
  · rw [patternInfoPatterns, patternInfoPatterns, patternInfoSetInfo]
    apply mod_two_pow_congr
    intro k hk
    rw [Nat.testBit_shiftRight, Nat.testBit_shiftRight, Nat.testBit_lor]
    rw [testBit_false_of_lt_pow hinf (Nat.le_add_right 32 k)]
    rw [maskPatterns_testBit_high]
    simp [hk]
  · intro hpid
    refine ⟨by simp [patternsInsert, hpid], ?_⟩
    rw [patternsContains]
    simp only [hpid, if_pos]
    have hbit : (p ||| (1 <<< pid)).testBit pid = true := by
      rw [Nat.testBit_lor, Nat.testBit_shiftLeft]
      simp
    have hb2 : ((p ||| (1 <<< pid)) &&& (1 <<< pid)).testBit pid = true := by
      rw [Nat.testBit_land, hbit, Nat.testBit_shiftLeft]
      simp
    simp [ne_zero_of_testBit hb2]
  · intro hpid
    constructor
    · simp [patternsInsert, Nat.not_lt.mpr hpid]
    · simp [patternsContains, Nat.not_lt.mpr hpid]

/-- Witness for C7 at concrete inputs: packing state 5 with info 7
round-trips through `state_id`. -/
theorem onepass_cell_packing_witness :
    transitionStateId (transitionNew 5 7) = 5 :=
  (onepass_cell_packing 5 7 0 3 1 300 44 9 6 8 2
    (by norm_num) (by norm_num) (by norm_num) (by norm_num)
    (by norm_num)).1

end RegexAutomata


namespace RegexAutomata
namespace Hybrid

theorem CacheM.bind_apply (x : CacheM α) (f : α → CacheM β) (c : Cache) :
    (x >>= f) c = match x c with
      | (.ok a, c') => f a c'
      | (.error e, c') => (.error e, c') := rfl

theorem CacheM.pure_apply (a : α) (c : Cache) :
    (Pure.pure (f := CacheM) a) c = (.ok a, c) := rfl

theorem CacheM.get_apply (c : Cache) : CacheM.get c = (.ok c, c) := rfl

theorem CacheM.modify_apply (f : Cache → Cache) (c : Cache) :
    CacheM.modify f c = (.ok (), f c) := rfl

theorem nextStateId_run (I : InertDFA) (fuel : Nat) (c : Cache)
    (hid : c.trans.length ≤ I.idLimit) :
    nextStateId I (fuel + 1) c = (.ok { index := c.trans.length }, c) := by
  simp [nextStateId, CacheM.bind_apply, CacheM.get_apply, lazyIdNew, hid,
    CacheM.pure_apply, CacheM.pure]

theorem addState_run_skipQuit (I : InertDFA) (fuel : Nat) (state : DState)
    (idmap : LazyStateID → LazyStateID) (c : Cache)
    (hcap : Cache.memoryUsage I c + memoryUsageForOneMoreState I state.mem
      ≤ I.cacheCapacity)
    (hid : c.trans.length ≤ I.idLimit)
    (hskip : (!I.quitset.isEmpty
        && !isSentinel I (newStateId c state idmap)) = false) :
    addState I (fuel + 2) state idmap c =
      (.ok (newStateId c state idmap),
       { c with
          trans := c.trans ++ List.replicate I.stride unknownId,
          states := c.states ++ [state],
          statesToId := mapInsert c.statesToId state (newStateId c state idmap),
          memoryUsageState := c.memoryUsageState + state.mem }) := by
  have hnotgt : ¬ (Cache.memoryUsage I c
      + memoryUsageForOneMoreState I state.mem > I.cacheCapacity) :=
    Nat.not_lt.mpr hcap
  simp only [newStateId] at hskip
  simp only [addState, CacheM.bind_apply, CacheM.get_apply,
    CacheM.modify_apply, CacheM.pure_apply, CacheM.pure, if_neg hnotgt,
    nextStateId_run I fuel c hid, hskip, Bool.false_eq_true, if_false,
    newStateId]

end Hybrid
end RegexAutomata

namespace RegexAutomata
namespace Hybrid

theorem foldSetTransition_run {β : Type} (I : InertDFA)
    (from_ to_ : LazyStateID) (g : β → Nat) (bs : List β) (c : Cache)
    (hf : from_.index % I.stride = 0) (ht : to_.index % I.stride = 0)
    (hfl : from_.index < c.trans.length) (htl : to_.index < c.trans.length)
    (hb : ∀ b ∈ bs, from_.index + g b < c.trans.length) :
    (bs.foldlM (fun _ b => setTransition I from_ (g b) to_) (() : Unit)) c
      = (.ok (),
         { c with trans :=
                    bs.foldl (fun t b => t.set (from_.index + g b) to_)
                      c.trans }) := by
  induction bs generalizing c with
  | nil => simp [List.foldlM_nil, CacheM.pure_apply]
  | cons b rest ih =>
    have hvf : isValid I c from_ = true := by
      simp [isValid, hfl, hf]
    have hvt : isValid I c to_ = true := by
      simp [isValid, htl, ht]
    have hoff : from_.index + g b < c.trans.length := hb b (by simp)
    rw [List.foldlM_cons, CacheM.bind_apply]
    simp only [setTransition, hvf, hvt, Bool.and_self, if_true, if_pos hoff]
    rw [ih]
    · simp [List.foldl_cons]
    · simpa using hfl
    · simpa using htl
    · intro x hx
      simpa using hb x (by simp [hx])

end Hybrid
end RegexAutomata

namespace RegexAutomata
namespace Hybrid

theorem setAllTransitions_run (I : InertDFA) (from_ to_ : LazyStateID)
    (c : Cache)
    (hf : from_.index % I.stride = 0) (ht : to_.index % I.stride = 0)
    (hfl : from_.index < c.trans.length) (htl : to_.index < c.trans.length)
    (hb : from_.index + I.alphabetLen ≤ c.trans.length) :
    setAllTransitions I from_ to_ c
      = (.ok (),
         { c with trans :=
                    (List.range I.alphabetLen).foldl
                      (fun t u => t.set (from_.index + u) to_) c.trans }) := by
  have h := foldSetTransition_run I from_ to_ (fun u => u)
    (List.range I.alphabetLen) c hf ht hfl htl
    (by intro b hbm
        have hblt : b < I.alphabetLen := List.mem_range.mp hbm
        show from_.index + b < c.trans.length
        omega)
  exact h

end Hybrid
end RegexAutomata

namespace RegexAutomata
namespace Hybrid

theorem startsLenI_fold (I : InertDFA) :
    I.startCount + (if I.startsForEachPattern = true then
      I.startCount * I.patternCount else 0) = startsLenI I := rfl

theorem length_foldl_preserve {α β : Type} (us : List β)
    (g : List α → β → List α) (hg : ∀ t u, (g t u).length = t.length) :
    ∀ l : List α, (us.foldl g l).length = l.length := by
  induction us with
  | nil => intro l; simp
  | cons u rest ih => intro l; simp [ih, hg]

theorem CacheM.unwrap_apply (x : CacheM α) (c : Cache) :
    CacheM.unwrap x c = match x c with
      | (.error .fuel, c') => (.error .fuel, c')
      | (.error _, c') => (.error CErr.crash, c')
      | ok => ok := rfl

theorem stride_pos (I : InertDFA) : 0 < I.stride :=
  Nat.pos_pow_of_pos _ (by norm_num)

theorem initCache_run (I : InertDFA) (fuel : Nat) (c : Cache)
    (htr : c.trans = []) (hst : c.starts = []) (hss : c.states = [])
    (hmap : c.statesToId = []) (hmem : c.memoryUsageState = 0)
    (hcap : initRequired I ≤ I.cacheCapacity)
    (hid : 2 * I.stride ≤ I.idLimit)
    (halpha : I.alphabetLen ≤ I.stride) :
    initCache I (fuel + 3) c
      = (.ok (),
         { c with trans := initTrans I,
                  starts := List.replicate (startsLenI I) unknownId,
                  states := [DState.dead, DState.dead, DState.dead],
                  statesToId := [(DState.dead, deadId I)],
                  memoryUsageState := 0 }) := by
  have hstride := stride_pos I
  obtain ⟨tr, st, ss, mp, sv, mm, cc⟩ := c
  simp only at htr hst hss hmap hmem
  subst htr hst hss hmap hmem
  have hcap' : startsLenI I * I.idSize + I.fixedMem
      + 3 * memoryUsageForOneMoreState I 0 ≤ I.cacheCapacity := hcap
  set R := List.replicate (startsLenI I) unknownId with hR
  set T1 := List.replicate I.stride unknownId with hT1
  have h1 : addState I (fuel + 2) DState.dead (fun id => id.toUnknown)
      ⟨[], R, [], [], sv, 0, cc⟩
      = (.ok unknownId, ⟨T1, R, [DState.dead], [(DState.dead, unknownId)],
          sv, 0, cc⟩) := by
    rw [addState_run_skipQuit I fuel DState.dead (fun id => id.toUnknown) _
      (by simp [Cache.memoryUsage, memoryUsageForOneMoreState, DState.dead,
            hR, memoryUsageForOneMoreState] at hcap' ⊢
          omega)
      (by simp)
      (by simp [newStateId, DState.dead, LazyStateID.toUnknown, unknownId,
            isSentinel])]
    simp [newStateId, DState.dead, LazyStateID.toUnknown, unknownId,
      mapInsert, hT1]
  have h2 : addState I (fuel + 2) DState.dead (fun id => id.toDead)
      ⟨T1, R, [DState.dead], [(DState.dead, unknownId)], sv, 0, cc⟩
      = (.ok (deadId I), ⟨T1 ++ T1, R, [DState.dead, DState.dead],
          [(DState.dead, deadId I)], sv, 0, cc⟩) := by
    rw [addState_run_skipQuit I fuel DState.dead (fun id => id.toDead) _
      (by simp [Cache.memoryUsage, memoryUsageForOneMoreState, DState.dead,
            hR, hT1] at hcap' ⊢
          omega)
      (by simp [hT1]; omega)
      (by simp [newStateId, DState.dead, LazyStateID.toDead, deadId,
            isSentinel, hT1])]
    simp [newStateId, DState.dead, LazyStateID.toDead, deadId, unknownId,
      mapInsert, hT1]
  have h3 : addState I (fuel + 2) DState.dead (fun id => id.toQuit)
      ⟨T1 ++ T1, R, [DState.dead, DState.dead], [(DState.dead, deadId I)],
        sv, 0, cc⟩
      = (.ok (quitId I), ⟨T1 ++ (T1 ++ T1), R,
          [DState.dead, DState.dead, DState.dead],
          [(DState.dead, quitId I)], sv, 0, cc⟩) := by
    rw [addState_run_skipQuit I fuel DState.dead (fun id => id.toQuit) _
      (by simp [Cache.memoryUsage, memoryUsageForOneMoreState, DState.dead,
            hR, hT1, Nat.add_mul] at hcap' ⊢
          omega)
      (by simp [hT1]; omega)
      (by simp [newStateId, DState.dead, LazyStateID.toQuit, quitId,
            isSentinel, hT1, Nat.two_mul])]
    simp [newStateId, DState.dead, LazyStateID.toQuit, quitId, deadId,
      unknownId, mapInsert, hT1, Nat.two_mul]
    omega
  set F0 := (List.range I.alphabetLen).foldl
    (fun t u => t.set u unknownId) (T1 ++ (T1 ++ T1)) with hF0
  set F1 := (List.range I.alphabetLen).foldl
    (fun t u => t.set (I.stride + u) (deadId I)) F0 with hF1
  set F2 := (List.range I.alphabetLen).foldl
    (fun t u => t.set (2 * I.stride + u) (quitId I)) F1 with hF2
  have hlT : (T1 ++ (T1 ++ T1)).length = I.stride + (I.stride + I.stride) := by
    simp [hT1, Nat.add_assoc]
  have hlF0 : F0.length = I.stride + (I.stride + I.stride) := by
    rw [hF0, length_foldl_preserve]
    · exact hlT
    · intro t u; simp [List.length_set]
  have hlF1 : F1.length = I.stride + (I.stride + I.stride) := by
    rw [hF1, length_foldl_preserve]
    · exact hlF0
    · intro t u; simp [List.length_set]
  have h4 : setAllTransitions I unknownId unknownId
      ⟨T1 ++ (T1 ++ T1), R, [DState.dead, DState.dead, DState.dead],
        [(DState.dead, quitId I)], sv, 0, cc⟩
      = (.ok (), ⟨F0, R, [DState.dead, DState.dead, DState.dead],
          [(DState.dead, quitId I)], sv, 0, cc⟩) := by
    rw [setAllTransitions_run I unknownId unknownId _
      (by simp [unknownId]) (by simp [unknownId])
      (by simp [unknownId, hlT]; omega)
      (by simp [unknownId, hlT]; omega)
      (by simp [unknownId, hlT]; omega)]
    simp [unknownId, hF0]
  have h5 : setAllTransitions I (deadId I) (deadId I)
      ⟨F0, R, [DState.dead, DState.dead, DState.dead],
        [(DState.dead, quitId I)], sv, 0, cc⟩
      = (.ok (), ⟨F1, R, [DState.dead, DState.dead, DState.dead],
          [(DState.dead, quitId I)], sv, 0, cc⟩) := by
    rw [setAllTransitions_run I (deadId I) (deadId I) _
      (by simp [deadId]) (by simp [deadId])
      (by simp [deadId, hlF0]; omega)
      (by simp [deadId, hlF0]; omega)
      (by simp [deadId, hlF0]; omega)]
    simp [deadId, hF1]
  have h6 : setAllTransitions I (quitId I) (quitId I)
      ⟨F1, R, [DState.dead, DState.dead, DState.dead],
        [(DState.dead, quitId I)], sv, 0, cc⟩
      = (.ok (), ⟨F2, R, [DState.dead, DState.dead, DState.dead],
          [(DState.dead, quitId I)], sv, 0, cc⟩) := by
    rw [setAllTransitions_run I (quitId I) (quitId I) _
      (by simp [quitId, Nat.mul_mod_right]) (by simp [quitId, Nat.mul_mod_right])
      (by simp [quitId, hlF1]; omega)
      (by simp [quitId, hlF1]; omega)
      (by simp [quitId, hlF1]; omega)]
    simp [quitId, hF2]
  simp only [initCache, CacheM.bind_apply, CacheM.modify_apply,
    List.nil_append, startsLenI_fold, ← hR, CacheM.unwrap_apply, h1, h2, h3,
    and_self, if_true, h4, h5, h6]
  simp [mapInsert, initTrans, hF2, hF1, hF0, hT1, Nat.add_assoc]

end Hybrid
end RegexAutomata

namespace RegexAutomata
namespace Hybrid

theorem clearCache_run_nosave (I : InertDFA) (fuel : Nat) (c : Cache)
    (hsv : c.stateSaver = .none)
    (hcap : initRequired I ≤ I.cacheCapacity)
    (hid : 2 * I.stride ≤ I.idLimit)
    (halpha : I.alphabetLen ≤ I.stride) :
    clearCache I (fuel + 4) c
      = (.ok (), { freshCache I with clearCount := c.clearCount + 1 }) := by
  obtain ⟨tr, st, ss, mp, sv, mm, cc⟩ := c
  simp only at hsv
  subst hsv
  have hinit := initCache_run I fuel
    ⟨[], [], [], [], .none, 0, cc + 1⟩ rfl rfl rfl rfl rfl hcap hid halpha
  simp only [clearCache, CacheM.bind_apply, CacheM.modify_apply, hinit,
    CacheM.get_apply, StateSaver.takeToSave, CacheM.set, CacheM.pure,
    freshCache]

theorem resetCache_run (I : InertDFA) (fuel : Nat) (c : Cache)
    (hcap : initRequired I ≤ I.cacheCapacity)
    (hid : 2 * I.stride ≤ I.idLimit)
    (halpha : I.alphabetLen ≤ I.stride) :
    resetCache I (fuel + 4) c = (.ok (), freshCache I) := by
  have hclear := clearCache_run_nosave I fuel { c with stateSaver := .none }
    rfl hcap hid halpha
  simp only [resetCache, CacheM.bind_apply, CacheM.modify_apply, hclear,
    freshCache]

theorem cacheNew_run (I : InertDFA) (fuel : Nat)
    (hcap : initRequired I ≤ I.cacheCapacity)
    (hid : 2 * I.stride ≤ I.idLimit)
    (halpha : I.alphabetLen ≤ I.stride) :
    cacheNew I (fuel + 3) = (.ok (), freshCache I) := by
  have h := initCache_run I fuel Cache.empty rfl rfl rfl rfl rfl
    hcap hid halpha
  simpa [cacheNew, Cache.empty, freshCache] using h

end Hybrid
end RegexAutomata

namespace RegexAutomata
namespace Hybrid

/-- Claim C9 (corrected): `reset_cache` and `Cache::new` produce the same
observable cache — `freshCache` — so any search run after a reset yields
exactly the result it yields on a freshly created cache. (The spec's
further claim that sequential reuse of one cache across searches is
indistinguishable from per-search fresh caches is refuted separately: the
persisting clear count can make a later search give up.) -/
theorem hybrid_cache_reset_equals_fresh (I : InertDFA) (fuel : Nat)
    (c : Cache)
    (hcap : initRequired I ≤ I.cacheCapacity)
    (hid : 2 * I.stride ≤ I.idLimit)
    (halpha : I.alphabetLen ≤ I.stride) :
    resetCache I (fuel + 4) c = (.ok (), freshCache I) ∧
    cacheNew I (fuel + 3) = (.ok (), freshCache I) ∧
    ∀ search : Cache → SRes (Option HalfMatchS) × Cache,
      search (resetCache I (fuel + 4) c).2
        = search (cacheNew I (fuel + 3)).2 := by
  refine ⟨resetCache_run I fuel c hcap hid halpha,
    cacheNew_run I fuel hcap hid halpha, ?_⟩
  intro search
  rw [resetCache_run I fuel c hcap hid halpha,
    cacheNew_run I fuel hcap hid halpha]

/-- Witness for C9 at the concrete DFA `CX9` and the used cache
`usedC9`: the hypotheses hold and resetting yields the fresh cache. -/
theorem hybrid_cache_reset_equals_fresh_witness :
    initRequired CX9 ≤ CX9.cacheCapacity ∧ 2 * CX9.stride ≤ CX9.idLimit ∧
    CX9.alphabetLen ≤ CX9.stride ∧
    resetCache CX9 12 usedC9 = (.ok (), freshCache CX9) :=
  ⟨by decide, by decide, by decide,
    (hybrid_cache_reset_equals_fresh CX9 8 usedC9 (by decide) (by decide)
      (by decide)).1⟩

end Hybrid
end RegexAutomata

namespace RegexAutomata

/-- Claim C5 (amended): (1) after `next` yields a match `m`, the next
search's start is `m.end` and `last_match_end` is `Some(m.end)`; (2) when
the finder returns an empty match ending at `last_match_end`, that match
is discarded: the search is stepped one unit past its start and the
result comes from re-running the finder on the stepped search; (3)
`step_one` strictly advances the start; but (4) — contrary to the spec —
an empty match that does *not* end at `last_match_end` is yielded with
the next search start set to `m.end` only, with no one-unit advancement
(the `self.search.step()` call is commented out in the source). -/
theorem iter_next_empty_match_handling
    (finder : SearchMT → Except MatchErrorKind (Option MatchMT))
    (st : IterState) :
    (∀ m st1, tryMatchesNext finder st = (.found m, st1) →
      st1.search.span.start = m.stop ∧ st1.lastMatchEnd = some m.stop) ∧
    (∀ m, finder st.search = .ok (some m) → m.isEmpty = true →
      st.lastMatchEnd = some m.stop →
      tryMatchesNext finder st =
        match finder st.search.stepOne with
        | .error e => (.err e, { st with search := st.search.stepOne })
        | .ok Option.none => (.done, { st with search := st.search.stepOne })
        | .ok (some m2) =>
          (.found m2, { search := (st.search.stepOne).setStart m2.stop,
                        lastMatchEnd := some m2.stop })) ∧
    (∀ s : SearchMT, s.span.start < (SearchMT.stepOne s).span.start) ∧
    (∀ m, finder st.search = .ok (some m) → m.isEmpty = true →
      st.lastMatchEnd ≠ some m.stop →
      tryMatchesNext finder st =
        (.found m, { search := st.search.setStart m.stop,
                     lastMatchEnd := some m.stop })) := by
  refine ⟨?_, ?_, ?_, ?_⟩
  · intro m st1 h
    unfold tryMatchesNext at h
    cases hf : finder st.search with
    | error e =>
      rw [hf] at h
      exact absurd h (by simp)
    | ok mo =>
      cases mo with
      | none =>
        rw [hf] at h
        exact absurd h (by simp)
      | some m0 =>
        rw [hf] at h
        simp only at h
        rcases hre : (if m0.isEmpty then handleEmpty2 finder st m0
            else ((.found m0 : IterRes), st)) with ⟨res, st2⟩
        rw [hre] at h
        cases res with
        | found m2 =>
          simp only at h
          injection h with h1 h2
          injection h1 with h1
          subst h1 h2
          simp [SearchMT.setStart]
        | done => exact absurd h (by simp)
        | err e => exact absurd h (by simp)
        | crash => exact absurd h (by simp)
  · intro m hfind hemp hlast
    have hbeq : (some m.stop == st.lastMatchEnd) = true := by
      rw [hlast]
      exact beq_self_eq_true _
    cases hf2 : finder st.search.stepOne with
    | error e =>
      unfold tryMatchesNext handleEmpty2
      simp only [hfind, hemp, Bool.not_true, Bool.false_eq_true, if_false,
        if_true, hbeq, hf2]
    | ok mo2 =>
      cases mo2 with
      | none =>
        unfold tryMatchesNext handleEmpty2
        simp only [hfind, hemp, Bool.not_true, Bool.false_eq_true, if_false,
          if_true, hbeq, hf2]
      | some m2 =>
        unfold tryMatchesNext handleEmpty2
        simp only [hfind, hemp, Bool.not_true, Bool.false_eq_true, if_false,
          if_true, hbeq, hf2]
  · intro s
    unfold SearchMT.stepOne SearchMT.setStart
    split
    · exact nextUtf8_gt s.haystack s.span.start
    · exact Nat.lt_succ_self _
  · intro m hfind hemp hlast
    have hne : (some m.stop == st.lastMatchEnd) = false := by
      cases hsome : st.lastMatchEnd with
      | none => rfl
      | some v =>
        apply beq_eq_false_iff_ne.mpr
        intro hv
        injection hv with hv
        exact hlast (by rw [hsome, hv])
    unfold tryMatchesNext handleEmpty2
    simp only [hfind, hemp, Bool.not_true, Bool.false_eq_true, if_false,
      if_true, hne]

end RegexAutomata

namespace RegexAutomata

/-- Witness for C5 at a concrete finder and state: the finder returns an
empty match ending at `last_match_end`, and `next` steps the search one
unit and re-runs the finder, which here exhausts the iterator. -/
theorem iter_next_empty_match_handling_witness :
    finderW5 stW5.search = .ok (some ⟨0, ⟨1, 1⟩⟩) ∧
    (MatchMT.isEmpty ⟨0, ⟨1, 1⟩⟩) = true ∧
    stW5.lastMatchEnd = some (MatchMT.stop ⟨0, ⟨1, 1⟩⟩) ∧
    tryMatchesNext finderW5 stW5
      = (.done, { stW5 with search := stW5.search.stepOne }) := by
  refine ⟨rfl, rfl, rfl, ?_⟩
  rw [(iter_next_empty_match_handling finderW5 stW5).2.1 ⟨0, ⟨1, 1⟩⟩
    rfl rfl rfl]
  rfl

/-- Counterexample to C5 as stated: the finder returns an empty match (at
offset 0, not at the previous match's end since there is none), and the
iterator yields it while leaving the next search's start at 0 — the
start is *not* advanced by one unit after this empty match. -/
theorem iter_empty_match_no_step_counterexample :
    tryMatchesNext finderC5 stC5
      = (.found ⟨0, ⟨0, 0⟩⟩,
         ⟨⟨[97], ⟨0, 1⟩, Option.none, false, false⟩, some 0⟩) ∧
    (MatchMT.isEmpty ⟨0, ⟨0, 0⟩⟩) = true ∧
    (tryMatchesNext finderC5 stC5).2.search.span.start
      = stC5.search.span.start := by
  refine ⟨rfl, rfl, rfl⟩

end RegexAutomata

namespace RegexAutomata
namespace Hybrid

theorem noTM_bind {α β : Type} {x : CacheM α} {f : α → CacheM β}
    (hx : NoTM x) (hf : ∀ a, NoTM (f a)) : NoTM (x >>= f) := by
  intro c
  show (CacheM.bind x f c).1 ≠ _
  unfold CacheM.bind
  rcases h : x c with ⟨r, c1⟩
  cases r with
  | ok a => exact hf a c1
  | error e =>
    have := hx c
    rw [h] at this
    simpa using this

theorem noTM_pure {α : Type} (a : α) : NoTM (CacheM.pure a) := by
  intro c; simp [CacheM.pure]

theorem noTM_purem {α : Type} (a : α) :
    NoTM (Pure.pure (f := CacheM) a) := noTM_pure a

theorem noTM_throw {α : Type} {e : CErr}
    (he : e ≠ .tooManyCacheResets) : NoTM (CacheM.throw e : CacheM α) := by
  intro c; simpa [CacheM.throw] using he

theorem noTM_get : NoTM CacheM.get := by
  intro c; simp [CacheM.get]

theorem noTM_set (c0 : Cache) : NoTM (CacheM.set c0) := by
  intro c; simp [CacheM.set]

theorem noTM_modify (f : Cache → Cache) : NoTM (CacheM.modify f) := by
  intro c; simp [CacheM.modify]

theorem noTM_unwrap {α : Type} (x : CacheM α) : NoTM (CacheM.unwrap x) := by
  intro c
  unfold CacheM.unwrap
  rcases h : x c with ⟨r, c1⟩
  match r with
  | .ok a => simp
  | .error .fuel => simp
  | .error .crash => simp
  | .error .tooManyCacheResets => simp

theorem noTM_setTransition (I : InertDFA) (from_ : LazyStateID) (unit : Nat)
    (to_ : LazyStateID) : NoTM (setTransition I from_ unit to_) := by
  intro c
  unfold setTransition
  split
  · split <;> simp
  · simp

theorem noTM_foldlM {β : Type} (g : Unit → β → CacheM Unit) (bs : List β)
    (hg : ∀ a b, NoTM (g a b)) : NoTM (bs.foldlM g ()) := by
  induction bs with
  | nil => simpa [List.foldlM_nil] using noTM_pure ()
  | cons b rest ih =>
    rw [List.foldlM_cons]
    exact noTM_bind (hg () b) (fun a => by cases a; exact ih)

theorem noTM_setAllTransitions (I : InertDFA) (from_ to_ : LazyStateID) :
    NoTM (setAllTransitions I from_ to_) :=
  noTM_foldlM _ _ (fun _ u => noTM_setTransition I from_ u to_)

theorem noTM_ite {α : Type} (P : Prop) [Decidable P] {x y : CacheM α}
    (hx : NoTM x) (hy : NoTM y) : NoTM (if P then x else y) := by
  by_cases h : P <;> simp [h, hx, hy]

theorem noTM_initCache (I : InertDFA) (fuel : Nat) :
    NoTM (initCache I fuel) := by
  cases fuel with
  | zero => exact noTM_throw (by simp)
  | succ n =>
    show NoTM (initCache I (n + 1))
    unfold initCache
    refine noTM_bind (noTM_modify _) (fun _ => ?_)
    refine noTM_bind (noTM_unwrap _) (fun unkId => ?_)
    refine noTM_bind (noTM_unwrap _) (fun deadId2 => ?_)
    refine noTM_bind (noTM_unwrap _) (fun quitId2 => ?_)
    refine noTM_ite _ ?_ (noTM_throw (by simp))
    refine noTM_bind (noTM_setAllTransitions I _ _) (fun _ => ?_)
    refine noTM_bind (noTM_setAllTransitions I _ _) (fun _ => ?_)
    refine noTM_bind (noTM_setAllTransitions I _ _) (fun _ => ?_)
    exact noTM_modify _

theorem noTM_clearCache (I : InertDFA) (fuel : Nat) :
    NoTM (clearCache I fuel) := by
  cases fuel with
  | zero => exact noTM_throw (by simp)
  | succ n =>
    show NoTM (clearCache I (n + 1))
    unfold clearCache
    refine noTM_bind (noTM_modify _) (fun _ => ?_)
    refine noTM_bind (noTM_initCache I n) (fun _ => ?_)
    refine noTM_bind noTM_get (fun c => ?_)
    rcases htk : c.stateSaver.takeToSave with ⟨taken, saver⟩
    simp only [htk]
    refine noTM_bind (noTM_set _) (fun _ => ?_)
    cases taken with
    | none => exact noTM_pure ()
    | some idst =>
      rcases idst with ⟨oldId, state⟩
      refine noTM_ite _ (noTM_throw (by simp)) ?_
      exact noTM_bind (noTM_unwrap _) (fun _ => noTM_modify _)

end Hybrid
end RegexAutomata

namespace RegexAutomata
namespace Hybrid

/-- Claim C3 (amended): `try_clear_cache` fails with the cache error exactly
when a minimum clear count `n` is configured and the clear count is at
least `n` (the source compares with `>=`, not the spec's strict
"exceeds"); otherwise it clears the cache — restoring the fresh
configuration — and increments the clear count by one; and the search
loop surfaces the cache error as `GaveUp` at the current offset. -/
theorem hybrid_try_clear_cache_budget (I : InertDFA) (fuel : Nat)
    (c : Cache)
    (hsv : c.stateSaver = .none)
    (hcap : initRequired I ≤ I.cacheCapacity)
    (hid : 2 * I.stride ≤ I.idLimit)
    (halpha : I.alphabetLen ≤ I.stride) :
    ((tryClearCache I (fuel + 1) c).1 = .error .tooManyCacheResets
      ↔ ∃ n, I.minimumCacheClearCount = some n ∧ n ≤ c.clearCount) ∧
    ((I.minimumCacheClearCount = none
        ∨ ∃ n, I.minimumCacheClearCount = some n ∧ c.clearCount < n) →
      tryClearCache I (fuel + 5) c
        = (.ok (), { freshCache I with clearCount := c.clearCount + 1 })) ∧
    (∀ fuel2 hay stop pre earliest sid at_ byte out c2 c3,
      at_ < stop → hay.get? at_ = some byte →
      nextState I fuel2 sid byte c2 = (.error .tooManyCacheResets, c3) →
      findFwdLoop I (fuel2 + 1) hay stop pre earliest sid at_ out c2
        = (.err (.gaveUp at_), c3)) := by
  refine ⟨⟨?_, ?_⟩, ?_, ?_⟩
  · intro herr
    unfold tryClearCache at herr
    rw [CacheM.bind_apply, CacheM.get_apply] at herr
    cases hmin : I.minimumCacheClearCount with
    | none =>
      rw [hmin] at herr
      simp only at herr
      exact absurd herr (noTM_clearCache I fuel c)
    | some n =>
      rw [hmin] at herr
      simp only at herr
      by_cases hge : c.clearCount ≥ n
      · exact ⟨n, rfl, hge⟩
      · rw [if_neg hge] at herr
        exact absurd herr (noTM_clearCache I fuel c)
  · rintro ⟨n, hmin, hge⟩
    unfold tryClearCache
    rw [CacheM.bind_apply, CacheM.get_apply, hmin]
    simp only [ge_iff_le, if_pos hge, CacheM.throw]
  · intro hok
    unfold tryClearCache
    rw [CacheM.bind_apply, CacheM.get_apply]
    rcases hok with hmin | ⟨n, hmin, hlt⟩
    · rw [hmin]
      simp only
      exact clearCache_run_nosave I fuel c hsv hcap hid halpha
    · rw [hmin]
      simp only [ge_iff_le, if_neg (Nat.not_le.mpr hlt)]
      exact clearCache_run_nosave I fuel c hsv hcap hid halpha
  · intro fuel2 hay stop pre earliest sid at_ byte out c2 c3 hlt hget hnext
    unfold findFwdLoop
    simp only [if_pos hlt, hget, hnext, liftCacheErr]

/-- Witness for C3 at the concrete DFA `CX3` (budget one) and the empty
cache (clear count zero): clearing succeeds and increments the count. -/
theorem hybrid_try_clear_cache_budget_witness :
    Cache.empty.stateSaver = .none ∧
    initRequired CX3 ≤ CX3.cacheCapacity ∧
    2 * CX3.stride ≤ CX3.idLimit ∧ CX3.alphabetLen ≤ CX3.stride ∧
    (∃ n, CX3.minimumCacheClearCount = some n
      ∧ Cache.empty.clearCount < n) ∧
    tryClearCache CX3 5 Cache.empty
      = (.ok (), { freshCache CX3 with clearCount := 1 }) :=
  ⟨rfl, by decide, by decide, by decide, ⟨1, rfl, by decide⟩,
    (hybrid_try_clear_cache_budget CX3 0 Cache.empty rfl (by decide)
      (by decide) (by decide)).2.1 (Or.inr ⟨1, rfl, by decide⟩)⟩

/-- Counterexample to C3 as stated: with a configured minimum of zero and
a clear count of zero, the clear count does not *exceed* the minimum, yet
`try_clear_cache` gives up with the cache error. -/
theorem hybrid_try_clear_cache_budget_counterexample :
    (tryClearCache CXmin0 1 Cache.empty).1 = .error .tooManyCacheResets ∧
    CXmin0.minimumCacheClearCount = some 0 ∧
    ¬ (Cache.empty.clearCount > 0) :=
  ⟨rfl, rfl, by decide⟩

end Hybrid
end RegexAutomata

namespace RegexAutomata
namespace Hybrid

theorem get_set_eq_of_lt {α : Type} (l : List α) (i : Nat) (a : α)
    (h : i < l.length) : (l.set i a).get? i = some a := by
  simp [List.get?_eq_getElem?, List.getElem?_set_self, h]

theorem get_set_ne {α : Type} (l : List α) (i j : Nat) (a : α)
    (h : i ≠ j) : (l.set i a).get? j = l.get? j := by
  simp [List.get?_eq_getElem?, List.getElem?_set_ne h]

theorem foldl_set_get_preserve {α β : Type} (xs : List β) (g : β → Nat)
    (v : α) (l : List α) (p : Nat) (hp : l.get? p = some v) :
    (xs.foldl (fun t x => t.set (g x) v) l).get? p = some v := by
  induction xs generalizing l with
  | nil => simpa using hp
  | cons x rest ih =>
    simp only [List.foldl_cons]
    apply ih
    by_cases hx : g x = p
    · subst hx
      exact get_set_eq_of_lt _ _ _ (List.get?_eq_some.mp hp).choose
    · rw [get_set_ne _ _ _ _ hx]
      exact hp

theorem foldl_set_get_mem {α β : Type} (xs : List β) (g : β → Nat)
    (v : α) (l : List α) (b : β) (hb : b ∈ xs) (hlt : g b < l.length) :
    (xs.foldl (fun t x => t.set (g x) v) l).get? (g b) = some v := by
  induction xs generalizing l with
  | nil => cases hb
  | cons x rest ih =>
    simp only [List.foldl_cons]
    rcases List.mem_cons.mp hb with hbx | hbr
    · subst hbx
      apply foldl_set_get_preserve
      exact get_set_eq_of_lt _ _ _ hlt
    · exact ih _ hbr (by simpa using hlt)

end Hybrid
end RegexAutomata

namespace RegexAutomata
namespace Hybrid

theorem addState_run_withQuit (I : InertDFA) (fuel : Nat) (state : DState)
    (idmap : LazyStateID → LazyStateID) (c : Cache)
    (hcap : Cache.memoryUsage I c + memoryUsageForOneMoreState I state.mem
      ≤ I.cacheCapacity)
    (hid : c.trans.length ≤ I.idLimit)
    (hidx : (newStateId c state idmap).index = c.trans.length)
    (hmod : c.trans.length % I.stride = 0)
    (hlen : I.stride < c.trans.length)
    (hcls : ∀ b ∈ I.quitset, I.classOf b < I.alphabetLen)
    (halpha : I.alphabetLen ≤ I.stride)
    (htake : (!I.quitset.isEmpty
        && !isSentinel I (newStateId c state idmap)) = true) :
    addState I (fuel + 2) state idmap c =
      (.ok (newStateId c state idmap),
       { c with
          trans := I.quitset.foldl
            (fun t b => t.set (c.trans.length + I.classOf b) (quitId I))
            (c.trans ++ List.replicate I.stride unknownId),
          states := c.states ++ [state],
          statesToId := mapInsert c.statesToId state
            (newStateId c state idmap),
          memoryUsageState := c.memoryUsageState + state.mem }) := by
  have hstride := stride_pos I
  have hnotgt : ¬ (Cache.memoryUsage I c
      + memoryUsageForOneMoreState I state.mem > I.cacheCapacity) :=
    Nat.not_lt.mpr hcap
  have hfold := foldSetTransition_run I (newStateId c state idmap) (quitId I)
    I.classOf I.quitset
    { c with trans := c.trans ++ List.replicate I.stride unknownId }
    (by rw [hidx]; exact hmod)
    (by simp [quitId, Nat.mul_mod_right])
    (by simp only [hidx]; simp; omega)
    (by simp [quitId]; omega)
    (by intro b hbm
        have := hcls b hbm
        simp only [hidx]
        simp
        omega)
  rw [hidx] at hfold
  simp only [newStateId] at htake hfold ⊢
  simp only [addState, CacheM.bind_apply, CacheM.get_apply,
    CacheM.modify_apply, CacheM.pure_apply, CacheM.pure, if_neg hnotgt,
    nextStateId_run I fuel c hid, htake, if_true, hfold]

end Hybrid
end RegexAutomata

namespace RegexAutomata
namespace Hybrid

/-- Claim C2 (amended): `add_state` pre-installs, for every configured quit
byte, a transition to the quit state out of the newly added (non-sentinel)
state; and when the scan's transition on the byte at offset `at` leads to
the quit state, the search returns `Quit { byte, offset: at }` *only if no
match has been recorded yet* — with a recorded match the search returns
that match as `Ok` instead (the spec omits this case). -/
theorem hybrid_quit_byte_behavior (I : InertDFA) :
    (∀ fuel state idmap c,
      Cache.memoryUsage I c + memoryUsageForOneMoreState I state.mem
          ≤ I.cacheCapacity →
      c.trans.length ≤ I.idLimit →
      (newStateId c state idmap).index = c.trans.length →
      c.trans.length % I.stride = 0 →
      I.stride < c.trans.length →
      (∀ b ∈ I.quitset, I.classOf b < I.alphabetLen) →
      I.alphabetLen ≤ I.stride →
      (!I.quitset.isEmpty
          && !isSentinel I (newStateId c state idmap)) = true →
      (addState I (fuel + 2) state idmap c).1
          = .ok (newStateId c state idmap) ∧
      ∀ b ∈ I.quitset,
        (addState I (fuel + 2) state idmap c).2.trans.get?
            (c.trans.length + I.classOf b) = some (quitId I)) ∧
    (∀ fuel2 hay stop pre earliest sid at_ byte out c c2,
      at_ < stop → hay.get? at_ = some byte →
      nextState I fuel2 sid byte c = (.ok (quitId I), c2) →
      findFwdLoop I (fuel2 + 1) hay stop pre earliest sid at_ out c
        = if out.isSome then (.ok out, c2)
          else (.err (.quit byte at_), c2)) := by
  constructor
  · intro fuel state idmap c hcap hid hidx hmod hlen hcls halpha htake
    rw [addState_run_withQuit I fuel state idmap c hcap hid hidx hmod hlen
      hcls halpha htake]
    refine ⟨rfl, ?_⟩
    intro b hbm
    simp only
    apply foldl_set_get_mem (g := fun b => c.trans.length + I.classOf b)
    · exact hbm
    · have := hcls b hbm
      simp
      omega
  · intro fuel2 hay stop pre earliest sid at_ byte out c c2 hlt hget hnext
    unfold findFwdLoop
    simp only [if_pos hlt, hget, hnext]
    have htag : (quitId I).isTagged = true := by
      simp [LazyStateID.isTagged, quitId]
    simp [htag, quitId]
    intro hcontra
    exact absurd hcontra (by simp [LazyStateID.isTagged])

end Hybrid
end RegexAutomata

namespace RegexAutomata
namespace Hybrid

/-- Witness for C2 at the concrete DFA `CX2`: adding the match state to a
fresh cache installs the quit transition for quit byte 1, and scanning
byte 1 at offset 1 with no recorded match returns `Quit{1, 1}`. -/
theorem hybrid_quit_byte_behavior_witness :
    (Cache.memoryUsage CX2 (freshCache CX2)
        + memoryUsageForOneMoreState CX2 (1 : Nat) ≤ CX2.cacheCapacity) ∧
    (freshCache CX2).trans.length % CX2.stride = 0 ∧
    (addState CX2 5 ⟨true, [0], [20], 1⟩ (fun id => id)
        (freshCache CX2)).2.trans.get?
        ((freshCache CX2).trans.length + CX2.classOf 1)
      = some (quitId CX2) ∧
    findFwdLoop CX2 4 [0, 1] 2 Option.none false { index := 0 } 1
        Option.none cacheQ2
      = (.err (.quit 1 1), cacheQ2) := by
  refine ⟨by decide, by decide, ?_, ?_⟩
  · exact ((hybrid_quit_byte_behavior CX2).1 3 ⟨true, [0], [20], 1⟩
      (fun id => id) (freshCache CX2) (by decide) (by decide) (by decide)
      (by decide) (by decide) (by decide) (by decide) (by decide)).2
      1 (by decide)
  · rw [(hybrid_quit_byte_behavior CX2).2 3 [0, 1] 2 Option.none false
      { index := 0 } 1 1 Option.none cacheQ2 cacheQ2 (by decide)
      (by decide) rfl]
    rfl

/-- Counterexample to C2 as stated: at offset 1 the transition on quit
byte 1 leads to the quit state, but because a match (`HalfMatch` at
offset 0) has already been recorded, the search returns that match as
`Ok` rather than the error `Quit{1, 1}`. -/
theorem hybrid_quit_after_match_counterexample :
    CX2.quitset = [1] ∧
    nextState CX2 3 { index := 0 } 1 cacheQ2
      = (.ok (quitId CX2), cacheQ2) ∧
    findFwdLoop CX2 4 [0, 1] 2 Option.none false { index := 0 } 1
        (some ⟨0, 0⟩) cacheQ2
      = (.ok (some ⟨0, 0⟩), cacheQ2) :=
  ⟨rfl, rfl, rfl⟩

end Hybrid
end RegexAutomata

namespace RegexAutomata
namespace Hybrid

theorem initTrans_length (I : InertDFA) :
    (initTrans I).length = 3 * I.stride := by
  rw [initTrans, length_foldl_preserve, length_foldl_preserve,
    length_foldl_preserve]
  · simp
    omega
  · intro t u; simp
  · intro t u; simp
  · intro t u; simp

theorem clearCache_run_save (I : InertDFA) (fuel : Nat) (c : Cache)
    (oldId : LazyStateID) (oldState : DState)
    (hsv : c.stateSaver = .toSave oldId oldState)
    (hcap : initRequired I ≤ I.cacheCapacity)
    (hid : 2 * I.stride ≤ I.idLimit)
    (halpha : I.alphabetLen ≤ I.stride)
    (hsent : isSentinel I oldId = false)
    (hcap2 : Cache.memoryUsage I (freshCache I)
      + memoryUsageForOneMoreState I oldState.mem ≤ I.cacheCapacity)
    (hid2 : 3 * I.stride ≤ I.idLimit)
    (hskip : (!I.quitset.isEmpty
        && !isSentinel I (savedReAddId I oldId oldState)) = false) :
    clearCache I (fuel + 4) c
      = (.ok (), ⟨initTrans I ++ List.replicate I.stride unknownId,
          List.replicate (startsLenI I) unknownId,
          [DState.dead, DState.dead, DState.dead, oldState],
          mapInsert [(DState.dead, deadId I)] oldState
            (savedReAddId I oldId oldState),
          .saved (savedReAddId I oldId oldState),
          oldState.mem, c.clearCount + 1⟩) := by
  obtain ⟨tr, st, ss, mp, sv, mm, cc⟩ := c
  simp only at hsv
  subst hsv
  have hinit := initCache_run I fuel
    ⟨[], [], [], [], .toSave oldId oldState, 0, cc + 1⟩ rfl rfl rfl rfl rfl
    hcap hid halpha
  have hre : savedReAddId I oldId oldState
      = newStateId ⟨initTrans I, List.replicate (startsLenI I) unknownId,
          [DState.dead, DState.dead, DState.dead],
          [(DState.dead, deadId I)], .none, 0, cc + 1⟩ oldState
        (fun id => if oldId.start then id.toStart else id) := by
    simp [savedReAddId, newStateId, freshCache]
  have hadd := addState_run_skipQuit I (fuel + 1) oldState
    (fun id => if oldId.start then id.toStart else id)
    ⟨initTrans I, List.replicate (startsLenI I) unknownId,
      [DState.dead, DState.dead, DState.dead],
      [(DState.dead, deadId I)], .none, 0, cc + 1⟩
    (by simpa [Cache.memoryUsage, freshCache] using hcap2)
    (by simpa [initTrans_length] using hid2)
    (by rw [← hre]; exact hskip)
  rw [← hre] at hadd
  simp only [clearCache, CacheM.bind_apply, CacheM.modify_apply, hinit,
    CacheM.get_apply, StateSaver.takeToSave, CacheM.set, hsent,
    Bool.false_eq_true, if_false, CacheM.unwrap_apply, hadd,
    CacheM.pure, freshCache]
  simp

end Hybrid
end RegexAutomata

namespace RegexAutomata
namespace Hybrid

theorem savedReAddId_index (I : InertDFA) (oldId : LazyStateID)
    (oldState : DState) :
    (savedReAddId I oldId oldState).index = 3 * I.stride := by
  unfold savedReAddId newStateId
  split_ifs <;>
    simp_all [LazyStateID.toMatch, LazyStateID.toStart, freshCache,
      initTrans_length]

theorem savedReAddId_start (I : InertDFA) (oldId : LazyStateID)
    (oldState : DState) :
    (savedReAddId I oldId oldState).start = oldId.start := by
  unfold savedReAddId newStateId
  split_ifs <;>
    simp_all [LazyStateID.toMatch, LazyStateID.toStart]

theorem cacheNextState_run_forcedClear (I : InertDFA) (fuel : Nat)
    (c : Cache) (current : LazyStateID) (unit : Nat)
    (curState builder : DState)
    (hq : I.quitset = [])
    (hget : c.states.get? (current.index >>> I.stride2) = some curState)
    (hdet : I.detNext curState unit = builder)
    (hnofit : stateFitsInCache I c builder = false)
    (hlook : mapLookup c.statesToId builder = none)
    (hmin : I.minimumCacheClearCount = none
      ∨ ∃ n, I.minimumCacheClearCount = some n ∧ c.clearCount < n)
    (hsent : isSentinel I current = false)
    (hcap : initRequired I ≤ I.cacheCapacity)
    (hid : 2 * I.stride ≤ I.idLimit)
    (halpha : I.alphabetLen ≤ I.stride)
    (hcap2 : Cache.memoryUsage I (freshCache I)
      + memoryUsageForOneMoreState I curState.mem ≤ I.cacheCapacity)
    (hid3 : 4 * I.stride ≤ I.idLimit)
    (hunit : unit < I.alphabetLen) :
    cacheNextState I (fuel + 6) current unit c
      = (.ok (plainAddId I (4 * I.stride) builder),
         ⟨((initTrans I ++ List.replicate I.stride unknownId)
             ++ List.replicate I.stride unknownId).set
             (3 * I.stride + unit) (plainAddId I (4 * I.stride) builder),
           List.replicate (startsLenI I) unknownId,
           [DState.dead, DState.dead, DState.dead, curState, builder],
           mapInsert (mapInsert [(DState.dead, deadId I)] curState
             (savedReAddId I current curState)) builder
             (plainAddId I (4 * I.stride) builder),
           .none, curState.mem + builder.mem, c.clearCount + 1⟩) := by
  have hstride := stride_pos I
  have h1 : getState I current c = (.ok curState, c) := by
    simp only [getState, hget]
  have hsave : saveState I current c
      = (.ok (), { c with stateSaver := .toSave current curState }) := by
    simp only [saveState, CacheM.bind_apply, h1, CacheM.modify_apply]
  have htcc : tryClearCache I (fuel + 5)
      { c with stateSaver := .toSave current curState }
      = (.ok (), ⟨initTrans I ++ List.replicate I.stride unknownId,
          List.replicate (startsLenI I) unknownId,
          [DState.dead, DState.dead, DState.dead, curState],
          mapInsert [(DState.dead, deadId I)] curState
            (savedReAddId I current curState),
          .saved (savedReAddId I current curState),
          curState.mem, c.clearCount + 1⟩) := by
    have hclear := clearCache_run_save I fuel
      { c with stateSaver := .toSave current curState } current curState
      rfl hcap hid halpha hsent hcap2 (by omega) (by simp [hq])
    unfold tryClearCache
    rw [CacheM.bind_apply, CacheM.get_apply]
    rcases hmin with hmn | ⟨n, hmn, hlt⟩
    · rw [hmn]
      simp only
      exact hclear
    · rw [hmn]
      simp only [ge_iff_le, if_neg (Nat.not_le.mpr hlt)]
      exact hclear
  have hgt : Cache.memoryUsage I c
      + memoryUsageForOneMoreState I builder.mem > I.cacheCapacity := by
    have := hnofit
    unfold stateFitsInCache at this
    simpa using this
  have hlen4 : (initTrans I ++ List.replicate I.stride unknownId).length
      = 4 * I.stride := by
    simp [initTrans_length]
    omega
  have hnsi : nextStateId I (fuel + 5)
      ⟨initTrans I ++ List.replicate I.stride unknownId,
        List.replicate (startsLenI I) unknownId,
        [DState.dead, DState.dead, DState.dead, curState],
        mapInsert [(DState.dead, deadId I)] curState
          (savedReAddId I current curState),
        .saved (savedReAddId I current curState),
        curState.mem, c.clearCount + 1⟩
      = (.ok { index := 4 * I.stride },
         ⟨initTrans I ++ List.replicate I.stride unknownId,
          List.replicate (startsLenI I) unknownId,
          [DState.dead, DState.dead, DState.dead, curState],
          mapInsert [(DState.dead, deadId I)] curState
            (savedReAddId I current curState),
          .saved (savedReAddId I current curState),
          curState.mem, c.clearCount + 1⟩) := by
    have h := nextStateId_run I (fuel + 4)
      ⟨initTrans I ++ List.replicate I.stride unknownId,
        List.replicate (startsLenI I) unknownId,
        [DState.dead, DState.dead, DState.dead, curState],
        mapInsert [(DState.dead, deadId I)] curState
          (savedReAddId I current curState),
        .saved (savedReAddId I current curState),
        curState.mem, c.clearCount + 1⟩
      (by simpa [hlen4] using hid3)
    simpa [hlen4] using h
  have houter : addState I (fuel + 6) builder (fun sid => sid)
      { c with stateSaver := .toSave current curState }
      = (.ok (plainAddId I (4 * I.stride) builder),
         ⟨(initTrans I ++ List.replicate I.stride unknownId)
            ++ List.replicate I.stride unknownId,
          List.replicate (startsLenI I) unknownId,
          [DState.dead, DState.dead, DState.dead, curState, builder],
          mapInsert (mapInsert [(DState.dead, deadId I)] curState
            (savedReAddId I current curState)) builder
            (plainAddId I (4 * I.stride) builder),
          .saved (savedReAddId I current curState),
          curState.mem + builder.mem, c.clearCount + 1⟩) := by
    show addState I ((fuel + 5) + 1) builder (fun sid => sid) _ = _
    simp only [addState, CacheM.bind_apply, CacheM.get_apply]
    have hmem : Cache.memoryUsage I
        { c with stateSaver := .toSave current curState }
        + memoryUsageForOneMoreState I builder.mem > I.cacheCapacity := by
      simpa [Cache.memoryUsage] using hgt
    simp only [if_pos hmem, CacheM.bind_apply, htcc, hnsi,
      CacheM.modify_apply, hq, CacheM.pure_apply, CacheM.pure]
    simp [plainAddId, mapInsert, CacheM.bind_apply, CacheM.pure,
      CacheM.modify_apply]
  have hbuild : addBuilderState I (fuel + 6) builder (fun sid => sid)
      { c with stateSaver := .toSave current curState }
      = addState I (fuel + 6) builder (fun sid => sid)
        { c with stateSaver := .toSave current curState } := by
    simp only [addBuilderState, CacheM.bind_apply, CacheM.get_apply]
    have : mapLookup
        ({ c with stateSaver := .toSave current curState }).statesToId
        builder = none := by simpa using hlook
    rw [this]
  have hsvid : savedStateId
      ⟨(initTrans I ++ List.replicate I.stride unknownId)
         ++ List.replicate I.stride unknownId,
       List.replicate (startsLenI I) unknownId,
       [DState.dead, DState.dead, DState.dead, curState, builder],
       mapInsert (mapInsert [(DState.dead, deadId I)] curState
         (savedReAddId I current curState)) builder
         (plainAddId I (4 * I.stride) builder),
       .saved (savedReAddId I current curState),
       curState.mem + builder.mem, c.clearCount + 1⟩
      = (.ok (savedReAddId I current curState),
         ⟨(initTrans I ++ List.replicate I.stride unknownId)
            ++ List.replicate I.stride unknownId,
          List.replicate (startsLenI I) unknownId,
          [DState.dead, DState.dead, DState.dead, curState, builder],
          mapInsert (mapInsert [(DState.dead, deadId I)] curState
            (savedReAddId I current curState)) builder
            (plainAddId I (4 * I.stride) builder),
          .none, curState.mem + builder.mem, c.clearCount + 1⟩) := by
    simp [savedStateId, StateSaver.takeSaved]
  have hlen5 : ((initTrans I ++ List.replicate I.stride unknownId)
      ++ List.replicate I.stride unknownId).length = 5 * I.stride := by
    simp [initTrans_length]
    omega
  have hpid : (plainAddId I (4 * I.stride) builder).index
      = 4 * I.stride := by
    unfold plainAddId
    split_ifs <;> simp [LazyStateID.toMatch]
  have hsetT : setTransition I (savedReAddId I current curState) unit
      (plainAddId I (4 * I.stride) builder)
      ⟨(initTrans I ++ List.replicate I.stride unknownId)
         ++ List.replicate I.stride unknownId,
       List.replicate (startsLenI I) unknownId,
       [DState.dead, DState.dead, DState.dead, curState, builder],
       mapInsert (mapInsert [(DState.dead, deadId I)] curState
         (savedReAddId I current curState)) builder
         (plainAddId I (4 * I.stride) builder),
       .none, curState.mem + builder.mem, c.clearCount + 1⟩
      = (.ok (),
         ⟨(((initTrans I ++ List.replicate I.stride unknownId)
              ++ List.replicate I.stride unknownId)).set
            (3 * I.stride + unit) (plainAddId I (4 * I.stride) builder),
          List.replicate (startsLenI I) unknownId,
          [DState.dead, DState.dead, DState.dead, curState, builder],
          mapInsert (mapInsert [(DState.dead, deadId I)] curState
            (savedReAddId I current curState)) builder
            (plainAddId I (4 * I.stride) builder),
          .none, curState.mem + builder.mem, c.clearCount + 1⟩) := by
    have hv1 : isValid I
        ⟨(initTrans I ++ List.replicate I.stride unknownId)
           ++ List.replicate I.stride unknownId,
         List.replicate (startsLenI I) unknownId,
         [DState.dead, DState.dead, DState.dead, curState, builder],
         mapInsert (mapInsert [(DState.dead, deadId I)] curState
           (savedReAddId I current curState)) builder
           (plainAddId I (4 * I.stride) builder),
         .none, curState.mem + builder.mem, c.clearCount + 1⟩
        (savedReAddId I current curState) = true := by
      have h3 := initTrans_length I
      simp [isValid, savedReAddId_index, Nat.mul_mod_right]
      omega
    have hv2 : isValid I
        ⟨(initTrans I ++ List.replicate I.stride unknownId)
           ++ List.replicate I.stride unknownId,
         List.replicate (startsLenI I) unknownId,
         [DState.dead, DState.dead, DState.dead, curState, builder],
         mapInsert (mapInsert [(DState.dead, deadId I)] curState
           (savedReAddId I current curState)) builder
           (plainAddId I (4 * I.stride) builder),
         .none, curState.mem + builder.mem, c.clearCount + 1⟩
        (plainAddId I (4 * I.stride) builder) = true := by
      have h3 := initTrans_length I
      simp [isValid, hpid, Nat.mul_mod_right]
      omega
    simp only [setTransition, hv1, hv2, Bool.and_self, if_true]
    rw [savedReAddId_index]
    have hbound : 3 * I.stride + unit
        < ((initTrans I ++ List.replicate I.stride unknownId)
            ++ List.replicate I.stride unknownId).length := by
      rw [hlen5]
      omega
    rw [if_pos hbound]
  simp only [cacheNextState, CacheM.bind_apply, h1, CacheM.get_apply, hdet,
    hnofit, Bool.not_false, if_true, hsave, hbuild, houter, hsvid, hsetT,
    CacheM.pure_apply, CacheM.pure]

end Hybrid
end RegexAutomata

namespace RegexAutomata
namespace Hybrid

/-- Claim C4: when computing the next transition forces a cache clear
(the new state does not fit), the cache afterwards contains exactly the
three sentinel states plus the saved originating state `current`
(re-added at the first free ID, with its start tag preserved) plus the
newly built state; the start table is reset to all-unknown; the clear
count is incremented; and the provoking transition is installed out of
the re-added copy of `current`. -/
theorem hybrid_forced_clear_preserves_current (I : InertDFA) (fuel : Nat)
    (c : Cache) (current : LazyStateID) (unit : Nat)
    (curState builder : DState)
    (hq : I.quitset = [])
    (hget : c.states.get? (current.index >>> I.stride2) = some curState)
    (hdet : I.detNext curState unit = builder)
    (hnofit : stateFitsInCache I c builder = false)
    (hlook : mapLookup c.statesToId builder = none)
    (hmin : I.minimumCacheClearCount = none
      ∨ ∃ n, I.minimumCacheClearCount = some n ∧ c.clearCount < n)
    (hsent : isSentinel I current = false)
    (hcap : initRequired I ≤ I.cacheCapacity)
    (hid : 2 * I.stride ≤ I.idLimit)
    (halpha : I.alphabetLen ≤ I.stride)
    (hcap2 : Cache.memoryUsage I (freshCache I)
      + memoryUsageForOneMoreState I curState.mem ≤ I.cacheCapacity)
    (hid3 : 4 * I.stride ≤ I.idLimit)
    (hunit : unit < I.alphabetLen) :
    cacheNextState I (fuel + 6) current unit c
      = (.ok (plainAddId I (4 * I.stride) builder),
         ⟨((initTrans I ++ List.replicate I.stride unknownId)
             ++ List.replicate I.stride unknownId).set
             (3 * I.stride + unit) (plainAddId I (4 * I.stride) builder),
           List.replicate (startsLenI I) unknownId,
           [DState.dead, DState.dead, DState.dead, curState, builder],
           mapInsert (mapInsert [(DState.dead, deadId I)] curState
             (savedReAddId I current curState)) builder
             (plainAddId I (4 * I.stride) builder),
           .none, curState.mem + builder.mem, c.clearCount + 1⟩)
      ∧ (savedReAddId I current curState).index = 3 * I.stride
      ∧ (savedReAddId I current curState).start = current.start :=
  ⟨cacheNextState_run_forcedClear I fuel c current unit curState builder
    hq hget hdet hnofit hlook hmin hsent hcap hid halpha hcap2 hid3 hunit,
   savedReAddId_index I current curState,
   savedReAddId_start I current curState⟩

/-- Witness for C4 at the concrete DFA `CX9`: stepping from the cached
start state on unit 0 does not fit, forcing a clear; afterwards the cache
holds the three sentinels, the re-added start state (start tag intact)
and the new state, with the provoking transition installed. -/
theorem hybrid_forced_clear_preserves_current_witness :
    CX9.quitset = [] ∧
    cW4.states.get? (cur4.index >>> CX9.stride2) = some s0x ∧
    CX9.detNext s0x 0 = s1x ∧
    stateFitsInCache CX9 cW4 s1x = false ∧
    mapLookup cW4.statesToId s1x = none ∧
    isSentinel CX9 cur4 = false ∧
    (cacheNextState CX9 10 cur4 0 cW4
      = (.ok (plainAddId CX9 (4 * CX9.stride) s1x),
         ⟨((initTrans CX9 ++ List.replicate CX9.stride unknownId)
             ++ List.replicate CX9.stride unknownId).set
             (3 * CX9.stride + 0) (plainAddId CX9 (4 * CX9.stride) s1x),
           List.replicate (startsLenI CX9) unknownId,
           [DState.dead, DState.dead, DState.dead, s0x, s1x],
           mapInsert (mapInsert [(DState.dead, deadId CX9)] s0x
             (savedReAddId CX9 cur4 s0x)) s1x
             (plainAddId CX9 (4 * CX9.stride) s1x),
           .none, s0x.mem + s1x.mem, cW4.clearCount + 1⟩)
      ∧ (savedReAddId CX9 cur4 s0x).index = 3 * CX9.stride
      ∧ (savedReAddId CX9 cur4 s0x).start = cur4.start) := by
  refine ⟨rfl, by decide, by decide, by decide, by decide, by decide, ?_⟩
  exact hybrid_forced_clear_preserves_current CX9 4 cW4 cur4 0 s0x s1x
    rfl (by decide) (by decide) (by decide) (by decide)
    (Or.inr ⟨1, rfl, by decide⟩) (by decide) (by decide) (by decide)
    (by decide) (by decide) (by decide) (by decide)

end Hybrid
end RegexAutomata

namespace RegexAutomata
namespace Hybrid

theorem findFwd_run (I : InertDFA) (fuel : Nat) (hay : List Nat)
    (start stop : Nat) (patternId : Option Nat) (c c2 : Cache)
    (sid : LazyStateID)
    (hss : ¬ start > stop)
    (hstart : startStateForward I fuel patternId hay start stop c
      = (.ok sid, c2)) :
    findFwd I fuel hay start stop Option.none false patternId c
      = findFwdLoop I fuel hay stop Option.none false sid start Option.none
          c2 := by
  cases patternId <;>
    · unfold findFwd findFwdImp
      simp only [if_neg hss, hstart, Option.isNone]
      rfl

theorem findFwdLoop_step_untagged (I : InertDFA) (fuel : Nat)
    (hay : List Nat) (stop : Nat) (pre : Option PreFn) (earliest : Bool)
    (sid sid2 : LazyStateID) (at_ byte : Nat) (out : Option HalfMatchS)
    (c c2 : Cache)
    (hlt : at_ < stop) (hget : hay.get? at_ = some byte)
    (hnext : nextState I fuel sid byte c = (.ok sid2, c2))
    (htag : sid2.isTagged = false) :
    findFwdLoop I (fuel + 1) hay stop pre earliest sid at_ out c
      = findFwdLoop I fuel hay stop pre earliest sid2 (at_ + 1) out c2 := by
  conv_lhs => unfold findFwdLoop
  simp only [if_pos hlt, hget, hnext, htag, Bool.false_eq_true, if_false]

theorem findFwdLoop_gaveUp (I : InertDFA) (fuel : Nat)
    (hay : List Nat) (stop : Nat) (pre : Option PreFn) (earliest : Bool)
    (sid : LazyStateID) (at_ byte : Nat) (out : Option HalfMatchS)
    (c c2 : Cache)
    (hlt : at_ < stop) (hget : hay.get? at_ = some byte)
    (hnext : nextState I fuel sid byte c
      = (.error .tooManyCacheResets, c2)) :
    findFwdLoop I (fuel + 1) hay stop pre earliest sid at_ out c
      = (.err (.gaveUp at_), c2) := by
  unfold findFwdLoop
  simp only [if_pos hlt, hget, hnext, liftCacheErr]

theorem findFwdLoop_eoi_noMatch (I : InertDFA) (fuel : Nat)
    (hay : List Nat) (stop : Nat) (pre : Option PreFn) (earliest : Bool)
    (sid sid2 : LazyStateID) (at_ : Nat) (out : Option HalfMatchS)
    (c c2 : Cache)
    (hlt : ¬ at_ < stop) (hget : hay.get? stop = none)
    (heoi : nextEoiState I fuel sid c = (.ok sid2, c2))
    (hm : sid2.isMatch = false) :
    findFwdLoop I (fuel + 1) hay stop pre earliest sid at_ out c
      = (.ok out, c2) := by
  unfold findFwdLoop eoiFwd
  simp only [if_neg hlt, hget, heoi, hm, Bool.false_eq_true, if_false]

set_option maxHeartbeats 1000000 in
theorem cx9_startA :
    startStateForward CX9 8 Option.none [0] 0 1 (freshCache CX9)
      = (.ok cur4, cW4) := rfl

set_option maxHeartbeats 1000000 in
theorem cx9_startC :
    startStateForward CX9 8 Option.none [2] 0 1 (freshCache CX9)
      = (.ok cur4, cW4) := rfl

set_option maxHeartbeats 1000000 in
theorem cx9_startB :
    startStateForward CX9 8 Option.none [2] 0 1 cA3
      = (.ok cur4, cB1) := rfl

set_option maxHeartbeats 1000000 in
theorem cx9_eoiA : nextEoiState CX9 6 t16 cA2
    = (.ok (deadId CX9), cA3) := rfl

set_option maxHeartbeats 1000000 in
theorem cx9_eoiC : nextEoiState CX9 6 t16 cC2
    = (.ok (deadId CX9), cC3) := rfl

set_option maxHeartbeats 1000000 in
theorem cx9_stepB : nextState CX9 7 cur4 2 cB1
    = (.error .tooManyCacheResets, cB2) := rfl

set_option maxHeartbeats 1000000 in
theorem cx9_runA_step : nextState CX9 7 cur4 0 cW4 = (.ok t16, cA2) := by
  have e1 := cacheNextState_run_forcedClear CX9 1 cW4 cur4 0 s0x s1x
    rfl (by decide) (by decide) (by decide) (by decide)
    (Or.inr ⟨1, rfl, by decide⟩) (by decide) (by decide) (by decide)
    (by decide) (by decide) (by decide) (by decide)
  have h0 : nextState CX9 7 cur4 0 cW4
      = cacheNextState CX9 7 cur4 0 cW4 := rfl
  rw [h0, e1, show plainAddId CX9 (4 * CX9.stride) s1x = t16 from by decide]
  exact congrArg (Prod.mk (Except.ok t16)) (by decide)

set_option maxHeartbeats 1000000 in
theorem cx9_runC_step : nextState CX9 7 cur4 2 cW4 = (.ok t16, cC2) := by
  have e1 := cacheNextState_run_forcedClear CX9 1 cW4 cur4 1 s0x tx
    rfl (by decide) (by decide) (by decide) (by decide)
    (Or.inr ⟨1, rfl, by decide⟩) (by decide) (by decide) (by decide)
    (by decide) (by decide) (by decide) (by decide)
  have h0 : nextState CX9 7 cur4 2 cW4
      = cacheNextState CX9 7 cur4 1 cW4 := rfl
  rw [h0, e1, show plainAddId CX9 (4 * CX9.stride) tx = t16 from by decide]
  exact congrArg (Prod.mk (Except.ok t16)) (by decide)

theorem cx9_runA :
    findFwd CX9 8 [0] 0 1 Option.none false Option.none (freshCache CX9)
      = (.ok Option.none, cA3) := by
  rw [findFwd_run CX9 8 [0] 0 1 Option.none (freshCache CX9) cW4 cur4
    (by decide) cx9_startA]
  rw [findFwdLoop_step_untagged CX9 7 [0] 1 Option.none false cur4 t16 0 0
    Option.none cW4 cA2 (by decide) (by decide) cx9_runA_step (by decide)]
  exact findFwdLoop_eoi_noMatch CX9 6 [0] 1 Option.none false t16
    (deadId CX9) 1 Option.none cA2 cA3 (by decide) (by decide) cx9_eoiA
    (by decide)

theorem cx9_runB :
    findFwd CX9 8 [2] 0 1 Option.none false Option.none cA3
      = (.err (.gaveUp 0), cB2) := by
  rw [findFwd_run CX9 8 [2] 0 1 Option.none cA3 cB1 cur4
    (by decide) cx9_startB]
  exact findFwdLoop_gaveUp CX9 7 [2] 1 Option.none false cur4 0 2
    Option.none cB1 cB2 (by decide) (by decide) cx9_stepB

theorem cx9_runC :
    findFwd CX9 8 [2] 0 1 Option.none false Option.none (freshCache CX9)
      = (.ok Option.none, cC3) := by
  rw [findFwd_run CX9 8 [2] 0 1 Option.none (freshCache CX9) cW4 cur4
    (by decide) cx9_startC]
  rw [findFwdLoop_step_untagged CX9 7 [2] 1 Option.none false cur4 t16 0 2
    Option.none cW4 cC2 (by decide) (by decide) cx9_runC_step (by decide)]
  exact findFwdLoop_eoi_noMatch CX9 6 [2] 1 Option.none false t16
    (deadId CX9) 1 Option.none cC2 cC3 (by decide) (by decide) cx9_eoiC
    (by decide)

end Hybrid
end RegexAutomata

namespace RegexAutomata
namespace Hybrid

/-- Counterexample to C9 as stated: running the searches `[0]` then `[2]`
in sequence with one cache is observably different from running each
search with its own fresh cache. The first search forces a cache clear;
with the shared cache the second search gives up (the clear budget is
exhausted by the count carried over), while with its own fresh cache the
same search succeeds. -/
theorem hybrid_cache_sequential_reuse_counterexample :
    cacheNew CX9 20 = (.ok (), freshCache CX9) ∧
    (findFwd CX9 8 [0] 0 1 Option.none false Option.none
        (freshCache CX9)).1 = .ok Option.none ∧
    (findFwd CX9 8 [2] 0 1 Option.none false Option.none
        (findFwd CX9 8 [0] 0 1 Option.none false Option.none
           (freshCache CX9)).2).1 = .err (.gaveUp 0) ∧
    (findFwd CX9 8 [2] 0 1 Option.none false Option.none
        (freshCache CX9)).1 = .ok Option.none := by
  refine ⟨cacheNew_run CX9 17 (by decide) (by decide) (by decide),
    ?_, ?_, ?_⟩
  · rw [cx9_runA]
  · rw [cx9_runA]
    rw [show (SRes.ok (Option.none : Option HalfMatchS), cA3).2 = cA3
      from rfl]
    rw [cx9_runB]
  · rw [cx9_runC]

end Hybrid
end RegexAutomata
